/-
  Verification of the LUKS2 token layer (lib/luks2/luks2_token.c) and the
  TPM2 external token handler against its natural-language specification.

  The development is a shallow embedding: JSON objects of the LUKS2 header
  become association lists, the dynamically resolved handler table becomes a
  value of a registry type, calls into external units (json-c, the header
  metadata validator, the TPM backend, the dynamic linker) become explicit
  environment parameters recording the outcome of each call.  Error codes are
  the Linux errno values the C source returns (as negative `Int`s).
-/
import Mathlib

set_option linter.unusedVariables false

/-! ## Error codes and fixed constants

The C code returns `-errno` values; these are the standard Linux numbers. -/

def EPERM : Int := 1
def ENOENT : Int := 2
def EAGAIN : Int := 11
def ENOMEM : Int := 12
def EACCES : Int := 13
def EINVAL : Int := 22
def ENOSPC : Int := 28
def ECOMM : Int := 70
def ENOTSUP : Int := 95

/-- CRYPT_ANY_TOKEN / CRYPT_ANY_SLOT / CRYPT_ANY_SEGMENT are all -1. -/
def CRYPT_ANY_TOKEN : Int := -1

def CRYPT_ANY_SLOT : Int := -1

def CRYPT_ANY_SEGMENT : Int := -1

/-- Fixed capacity of the token table and token map (LUKS2_TOKENS_MAX). -/
def LUKS2_TOKENS_MAX : Nat := 32

/-- Fixed capacity of the keyslot area (LUKS2_KEYSLOTS_MAX). -/
def LUKS2_KEYSLOTS_MAX : Nat := 32

/-- Maximal length of an external token name (LUKS2_TOKEN_NAME_MAX). -/
def LUKS2_TOKEN_NAME_MAX : Nat := 64

/-- Reserved name space for builtin tokens (LUKS2_BUILTIN_TOKEN_PREFIX). -/
def luks2BuiltinTokenPfx : String := "luks2-"

/-- Embeds `is_builtin_candidate`: does the type string carry the reserved
builtin name space tag?  (`strncmp(type, LUKS2_BUILTIN_TOKEN_PREFIX, 6)`,
expressed on the character lists). -/
def is_builtin_candidate (type : String) : Bool :=
  luks2BuiltinTokenPfx.toList.isPrefixOf type.toList

/-- Embeds `translate_errno` (luks2_token.c): a handler return value that is
positive or equals `-EINVAL`/`-ENOENT` is rewritten to `-EPERM` unless the
handler type is a builtin candidate. -/
def translate_errno (ret_val : Int) (type : String) : Int :=
  if (ret_val > 0 ∨ ret_val = -EINVAL ∨ ret_val = -ENOENT) ∧
      is_builtin_candidate type = false then
    -EPERM
  else
    ret_val

/-! ## Header data model

A token record in the header json: a `type` string and a `keyslots` array of
(stringified) keyslot ids.  Token-type specific payload is carried by the
concrete handlers and does not matter to the generic layer, except through
its serialized size, which we account for with an abstract `payloadSize`
(serialization itself lives in json-c, outside these sources). -/

structure LUKS2Token where
  ttype : String
  keyslots : List Int
  payloadSize : Nat := 0
deriving Repr, DecidableEq

/-- The LUKS2 header as the token layer sees it: the `tokens` json object
(an insertion-ordered map from token id to record), the set of keyslot ids
present in the `keyslots` json object, the default segment id, and the size
budget of the json metadata area. -/
structure LUKS2Hdr where
  tokens : List (Int × LUKS2Token)
  keyslotIds : List Int
  defaultSegment : Int := 0
  jsonAreaSize : Nat := 1000000
deriving Repr, DecidableEq

/-- Lookup of the first value stored under a key in an association list
(the json object keyed scan). -/
def assocFind (l : List (Int × LUKS2Token)) (k : Int) : Option LUKS2Token :=
  match l with
  | [] => none
  | p :: rest => if p.1 = k then some p.2 else assocFind rest k

/-- Embeds `LUKS2_get_token_jobj`: fetch the token record stored under the
given id, if any. -/
def LUKS2_get_token_jobj (hdr : LUKS2Hdr) (token : Int) : Option LUKS2Token :=
  assocFind hdr.tokens token

/-- Embeds `json_object_object_add` on the tokens object: replace the value
stored under an existing key in place, or append a new key. -/
def tokensSet (l : List (Int × LUKS2Token)) (k : Int) (v : LUKS2Token) :
    List (Int × LUKS2Token) :=
  if (assocFind l k).isSome then
    l.map (fun p => if p.1 = k then (k, v) else p)
  else
    l ++ [(k, v)]

/-- Embeds `json_object_object_del` on the tokens object. -/
def tokensDel (l : List (Int × LUKS2Token)) (k : Int) :
    List (Int × LUKS2Token) :=
  l.filter (fun p => decide (p.1 ≠ k))

/-- Rewrite the record stored under id `t` in place (mutation of the value
object held by the tokens map, as json-c does it). -/
def tokenModify (hdr : LUKS2Hdr) (t : Int) (f : LUKS2Token → LUKS2Token) :
    LUKS2Hdr :=
  { hdr with tokens := hdr.tokens.map (fun p => if p.1 = t then (p.1, f p.2) else p) }

/-- Embeds `LUKS2_token_find_free`: lowest id in [0, LUKS2_TOKENS_MAX) with no
record, `-EINVAL` when the map is full. -/
def LUKS2_token_find_free (hdr : LUKS2Hdr) : Int :=
  match (List.range LUKS2_TOKENS_MAX).find?
      (fun i => (LUKS2_get_token_jobj hdr (Int.ofNat i)).isNone) with
  | some i => Int.ofNat i
  | none => -EINVAL

/-- Embeds `LUKS2_tokens_count`: number of entries of the tokens object. -/
def LUKS2_tokens_count (hdr : LUKS2Hdr) : Int :=
  Int.ofNat hdr.tokens.length

/-- Embeds `token_is_assigned`: 0 when the keyslot id occurs in the token's
`keyslots` array, `-ENOENT` when it does not or the token does not exist. -/
def token_is_assigned (hdr : LUKS2Hdr) (keyslot token : Int) : Int :=
  match LUKS2_get_token_jobj hdr token with
  | none => -ENOENT
  | some tok => if keyslot ∈ tok.keyslots then 0 else -ENOENT

/-- Embeds `LUKS2_token_is_assigned`: range checks, then `token_is_assigned`. -/
def LUKS2_token_is_assigned (hdr : LUKS2Hdr) (keyslot token : Int) : Int :=
  if keyslot < 0 ∨ keyslot ≥ Int.ofNat LUKS2_KEYSLOTS_MAX ∨
      token < 0 ∨ token ≥ Int.ofNat LUKS2_TOKENS_MAX then
    -EINVAL
  else
    token_is_assigned hdr keyslot token

/-! ## Token-keyslot assignment -/

/-- Embeds `assign_one_keyslot`: insert the keyslot id into the token's
`keyslots` array when absent (`LUKS2_array_jobj` membership test), or remove
its first occurrence when present (`LUKS2_array_remove` builds a new array
without the matched element).  `-EINVAL` when the token does not exist.
The `keyslots` field is always present in this model (validated headers). -/
def assign_one_keyslot (hdr : LUKS2Hdr) (token keyslot : Int) (assign : Bool) :
    Int × LUKS2Hdr :=
  match LUKS2_get_token_jobj hdr token with
  | none => (-EINVAL, hdr)
  | some _ =>
    if assign then
      (0, tokenModify hdr token (fun tok =>
        if keyslot ∈ tok.keyslots then tok
        else { tok with keyslots := tok.keyslots ++ [keyslot] }))
    else
      (0, tokenModify hdr token (fun tok =>
        if keyslot ∈ tok.keyslots then
          { tok with keyslots := tok.keyslots.erase keyslot }
        else tok))

/-- Loop body of `assign_one_token` for `keyslot == CRYPT_ANY_SLOT`: apply
`assign_one_keyslot` to every keyslot id, stopping at the first error. -/
def assignKeyslotsLoop (token : Int) (assign : Bool) :
    List Int → LUKS2Hdr → Int × LUKS2Hdr
  | [], hdr => (0, hdr)
  | k :: rest, hdr =>
    let (r, hdr') := assign_one_keyslot hdr token k assign
    if r < 0 then (r, hdr') else assignKeyslotsLoop token assign rest hdr'

/-- Embeds `assign_one_token`. -/
def assign_one_token (hdr : LUKS2Hdr) (keyslot token : Int) (assign : Bool) :
    Int × LUKS2Hdr :=
  if (LUKS2_get_token_jobj hdr token).isNone then
    (-EINVAL, hdr)
  else if keyslot = CRYPT_ANY_SLOT then
    assignKeyslotsLoop token assign hdr.keyslotIds hdr
  else
    assign_one_keyslot hdr token keyslot assign

/-- Loop of `LUKS2_token_assign` for `token == CRYPT_ANY_TOKEN`: iterate over
the token ids of the tokens object, stopping at the first error. -/
def assignTokensLoop (keyslot : Int) (assign : Bool) :
    List Int → LUKS2Hdr → Int × LUKS2Hdr
  | [], hdr => (0, hdr)
  | t :: rest, hdr =>
    let (r, hdr') := assign_one_token hdr keyslot t assign
    if r < 0 then (r, hdr') else assignTokensLoop keyslot assign rest hdr'

/-- Embeds `LUKS2_token_assign`.  The `commit` write of the header image is
performed by `LUKS2_hdr_write` in the header container unit (outside these
sources) and is modelled as succeeding; on success the function returns the
`token` argument. -/
def LUKS2_token_assign (hdr : LUKS2Hdr) (keyslot token : Int)
    (assign commit : Bool) : Int × LUKS2Hdr :=
  let (r, hdr') :=
    if token = CRYPT_ANY_TOKEN then
      assignTokensLoop keyslot assign (hdr.tokens.map (fun p => p.1)) hdr
    else
      assign_one_token hdr keyslot token assign
  if r < 0 then (r, hdr') else (token, hdr')

/-- Loop of `LUKS2_token_assignment_copy` over all token ids `0 ≤ i < 32`:
every token assigned to `keyslot_from` also gets `keyslot_to` assigned. -/
def copyAssignLoop (keyslotFrom keyslotTo : Int) :
    List Int → LUKS2Hdr → Int × LUKS2Hdr
  | [], hdr => (0, hdr)
  | i :: rest, hdr =>
    if token_is_assigned hdr keyslotFrom i = 0 then
      let (r, hdr') := assign_one_token hdr keyslotTo i true
      if r ≠ 0 then (r, hdr') else copyAssignLoop keyslotFrom keyslotTo rest hdr'
    else
      copyAssignLoop keyslotFrom keyslotTo rest hdr

/-- Embeds `LUKS2_token_assignment_copy`.  Returns 0 on success (the `commit`
header write is modelled as succeeding, as for `LUKS2_token_assign`). -/
def LUKS2_token_assignment_copy (hdr : LUKS2Hdr) (keyslotFrom keyslotTo : Int)
    (commit : Bool) : Int × LUKS2Hdr :=
  if keyslotFrom < 0 ∨ keyslotFrom ≥ Int.ofNat LUKS2_KEYSLOTS_MAX ∨
      keyslotTo < 0 ∨ keyslotTo ≥ Int.ofNat LUKS2_KEYSLOTS_MAX then
    (-EINVAL, hdr)
  else
    let c := LUKS2_tokens_count hdr
    if c ≤ 0 then (c, hdr)
    else
      copyAssignLoop keyslotFrom keyslotTo
        ((List.range LUKS2_TOKENS_MAX).map Int.ofNat) hdr

/-! ## Handlers and the activation orchestrator

A resolved token handler, as the activation path sees it.  The function
pointers of the C handler become abstract result functions: `openRes tid`
is the pair (return code, secret buffer handle) produced by `h->open` on
token `tid`, and similarly for `open_pin`; `validateOk` is true when the
handler's `validate` accepts the serialized record. -/

structure Handler where
  name : String
  hasOpenPin : Bool := false
  hasValidate : Bool := false
  hasDump : Bool := false
  hasBufferFree : Bool := false
  validateOk : LUKS2Token → Bool := fun _ => true
  openRes : Int → Int × Nat := fun _ => (0, 0)
  openPinRes : Int → String → Int × Nat := fun _ _ => (0, 0)

/-- Environment of one activation request: the outcome of handler resolution
(registry lookup plus on-demand external load, a pure function of the type
name for a fixed process state), and the results of the keyslot-layer calls.
`keyslotForSegment ks seg` is `LUKS2_keyslot_for_segment`, and
`keyslotOpen ks seg buf` is `LUKS2_keyslot_open` with the secret buffer
returned by the handler. -/
structure ActEnv where
  handlers : String → Option Handler
  keyslotForSegment : Int → Int → Int := fun _ _ => 0
  keyslotOpen : Int → Int → Nat → Int := fun _ _ _ => 0
  useKeyringForVk : Bool := false
  cipherNull : Bool := false
  keyringLoad : Int → Int := fun _ => 0
  activateRes : Int := 0

/-- Embeds `LUKS2_token_handler`: resolve the handler for the type recorded
under the given token id. -/
def LUKS2_token_handler (env : ActEnv) (hdr : LUKS2Hdr) (token : Int) :
    Option Handler :=
  if token < 0 then none
  else
    match LUKS2_get_token_jobj hdr token with
    | none => none
    | some tok => env.handlers tok.ttype

/-- Loop of `token_for_segment` over the token's `keyslots` array: return the
first `LUKS2_keyslot_for_segment` result different from `-ENOENT`, else
`-ENOENT`. -/
def tokenForSegmentLoop (env : ActEnv) (segment : Int) : List Int → Int
  | [] => -ENOENT
  | k :: rest =>
    let r := env.keyslotForSegment k segment
    if r ≠ -ENOENT then r else tokenForSegmentLoop env segment rest

/-- Embeds `token_for_segment`.  The `keyslots` field is always present in
this model, so the `-EINVAL` missing-field path does not arise. -/
def token_for_segment (env : ActEnv) (tok : LUKS2Token) (segment : Int) : Int :=
  if segment < 0 ∧ segment ≠ CRYPT_ANY_SEGMENT then -EINVAL
  else if tok.keyslots.length ≤ 0 then -ENOENT
  else if segment = CRYPT_ANY_SEGMENT then 0
  else tokenForSegmentLoop env segment tok.keyslots

/-- Body of `LUKS2_token_open` after the type filter: segment usability,
handler resolution, stored-record re-validation, then the handler's `open`
or `open_pin` with the result fed through `translate_errno`. -/
def tokenOpenBody (env : ActEnv) (hdr : LUKS2Hdr) (token : Int)
    (tok : LUKS2Token) (segment : Int) (pin? : Option String) : Int × Nat :=
  let r := token_for_segment env tok segment
  if r < 0 then (r, 0)
  else
    match LUKS2_token_handler env hdr token with
    | none => (-ENOENT, 0)
    | some h =>
      if h.hasValidate ∧ h.validateOk tok = false then (-ENOENT, 0)
      else
        match pin? with
        | some pin =>
          if h.hasOpenPin = false then (-ENOENT, 0)
          else
            let (rv, buf) := h.openPinRes token pin
            (translate_errno rv h.name, buf)
        | none =>
          let (rv, buf) := h.openRes token
          (translate_errno rv h.name, buf)

/-- Embeds `LUKS2_token_open`: the optional type filter followed by the open
body.  Returns the code together with the secret buffer handle. -/
def LUKS2_token_open (env : ActEnv) (hdr : LUKS2Hdr) (token : Int)
    (tok : LUKS2Token) (type? : Option String) (segment : Int)
    (pin? : Option String) : Int × Nat :=
  match type? with
  | some t =>
    if t ≠ tok.ttype then (-ENOENT, 0)
    else tokenOpenBody env hdr token tok segment pin?
  | none => tokenOpenBody env hdr token tok segment pin?

/-- Loop of `LUKS2_keyslot_open_by_token` over the token's `keyslots` array,
carrying the last result and keyslot id (`num`). -/
def keyslotOpenLoop (env : ActEnv) (segment : Int) (buf : Nat) :
    List Int → Int × Int → Int × Int
  | [], acc => acc
  | k :: rest, (r, num) =>
    if r < 0 then keyslotOpenLoop env segment buf rest (env.keyslotOpen k segment buf, k)
    else (r, num)

/-- Embeds `LUKS2_keyslot_open_by_token`: try each keyslot referenced by the
token until one opens; on success return the keyslot id. -/
def LUKS2_keyslot_open_by_token (env : ActEnv) (hdr : LUKS2Hdr) (token : Int)
    (segment : Int) (buf : Nat) : Int :=
  match LUKS2_get_token_jobj hdr token with
  | none => -EINVAL
  | some tok =>
    let (r, num) := keyslotOpenLoop env segment buf tok.keyslots (-ENOENT, 0)
    if r < 0 then r else num

/-- One attempt of the activation loop: open the token, and when that gives
clean success unlock a keyslot with the produced secret (the buffer is then
released through `LUKS2_token_buffer_free`, which has no effect on the
header). -/
def token_attempt (env : ActEnv) (hdr : LUKS2Hdr) (segment : Int)
    (type? pin? : Option String) (tid : Int) (tok : LUKS2Token) : Int :=
  let (r, buf) := LUKS2_token_open env hdr tid tok type? segment pin?
  if r = 0 then LUKS2_keyslot_open_by_token env hdr tid segment buf else r

/-- Loop of `LUKS2_token_open_and_activate` for `token == CRYPT_ANY_TOKEN`:
iterate the entries of the tokens object, stopping at the first attempt whose
result is neither `-ENOENT` nor `-EPERM`. -/
def anyTokenLoop (env : ActEnv) (hdr : LUKS2Hdr) (segment : Int)
    (type? pin? : Option String) : List (Int × LUKS2Token) → Int → Int
  | [], r => r
  | (tid, tok) :: rest, _ =>
    let r := token_attempt env hdr segment type? pin? tid tok
    if r ≠ -ENOENT ∧ r ≠ -EPERM then r
    else anyTokenLoop env hdr segment type? pin? rest r

/-- Tail of `LUKS2_token_open_and_activate` after the token loop: keyring
load and device activation, returning the unlocked keyslot on success. -/
def openActivateTail (env : ActEnv) (r : Int) (name? : Option String)
    (keyringFlag : Bool) : Int :=
  if r < 0 then r
  else
    let keyslot := r
    let useKeyring := env.useKeyringForVk &&
      ((name?.isSome && !env.cipherNull) || keyringFlag)
    let r2 := if useKeyring then env.keyringLoad keyslot else r
    let r3 := if 0 ≤ r2 ∧ name?.isSome then env.activateRes else r2
    if r3 < 0 then r3 else keyslot

/-- Embeds `LUKS2_token_open_and_activate`.  `allowUnbound` is the
CRYPT_ACTIVATE_ALLOW_UNBOUND_KEY flag and `keyringFlag` the
CRYPT_ACTIVATE_KEYRING_KEY flag; `name?` is the device name to activate.
Keyring loading, device activation and volume-key release live outside these
sources and contribute only their result codes through `env`. -/
def LUKS2_token_open_and_activate (env : ActEnv) (hdr : LUKS2Hdr) (token : Int)
    (name? type? pin? : Option String) (allowUnbound keyringFlag : Bool) : Int :=
  let segment := if allowUnbound then CRYPT_ANY_SEGMENT else hdr.defaultSegment
  if allowUnbound = false ∧ hdr.defaultSegment < 0 then -EINVAL
  else if 0 ≤ token ∧ token < Int.ofNat LUKS2_TOKENS_MAX then
    match LUKS2_get_token_jobj hdr token with
    | some tok =>
      openActivateTail env (token_attempt env hdr segment type? pin? token tok)
        name? keyringFlag
    | none => openActivateTail env (-ENOENT) name? keyringFlag
  else if token = CRYPT_ANY_TOKEN then
    openActivateTail env
      (anyTokenLoop env hdr segment type? pin? hdr.tokens (-ENOENT))
      name? keyringFlag
  else -EINVAL

/-! ## Token creation -/

/-- Modelled from the spec: `LUKS2_token_validate` lives in the header
metadata unit (luks2_json_metadata.c), outside these sources.  Per the spec
the document must be structurally valid: it carries `type` and `keyslots`
fields (always true of the parsed model) and its keyslot references must
name keyslots of the header.  Returns 0 on acceptance. -/
def LUKS2_token_validate (hdr : LUKS2Hdr) (tok : LUKS2Token) : Int :=
  if tok.keyslots.all (fun k => hdr.keyslotIds.contains k) then 0 else -EINVAL

/-- Modelled from the spec: serialized size of one token record, standing in
for its json text length (serialization is json-c's, outside these sources). -/
def tokenSize (tok : LUKS2Token) : Nat :=
  tok.ttype.length + tok.keyslots.length + tok.payloadSize

/-- Modelled from the spec: total metadata size of the header json area. -/
def hdrJsonSize (hdr : LUKS2Hdr) : Nat :=
  (hdr.tokens.map (fun p => tokenSize p.2)).sum

/-- Modelled from the spec: `LUKS2_check_json_size` (header container unit)
is true exactly when the serialized header exceeds the json area budget. -/
def LUKS2_check_json_size (hdr : LUKS2Hdr) : Bool :=
  hdrJsonSize hdr > hdr.jsonAreaSize

/-- Embeds `LUKS2_token_create`.  `json = none` is the deletion request (NULL
json); otherwise the document arrives already parsed (json-c parsing is
outside these sources; the claims quantify over valid documents).  `handlers`
is the handler-resolution outcome as in `ActEnv`.  The `commit` header write
is modelled as succeeding.  Returns the concrete token id with the updated
header, or an error with the header as the call leaves it. -/
def LUKS2_token_create (handlers : String → Option Handler) (hdr : LUKS2Hdr)
    (token : Int) (json : Option LUKS2Token) (commit : Bool) : Int × LUKS2Hdr :=
  if token = CRYPT_ANY_TOKEN ∧ json.isNone then (-EINVAL, hdr)
  else
    let token := if token = CRYPT_ANY_TOKEN then LUKS2_token_find_free hdr else token
    if token < 0 ∨ token ≥ Int.ofNat LUKS2_TOKENS_MAX then (-EINVAL, hdr)
    else
      match json with
      | none => (token, { hdr with tokens := tokensDel hdr.tokens token })
      | some tok =>
        if LUKS2_token_validate hdr tok ≠ 0 then (-EINVAL, hdr)
        else
          let h := handlers tok.ttype
          if is_builtin_candidate tok.ttype ∧ h.isNone then (-EINVAL, hdr)
          else if (match h with
                   | some hh => hh.hasValidate && !hh.validateOk tok
                   | none => false) then (-EINVAL, hdr)
          else
            let hdr' := { hdr with tokens := tokensSet hdr.tokens token tok }
            if LUKS2_check_json_size hdr' then
              (-ENOSPC, { hdr' with tokens := tokensDel hdr'.tokens token })
            else (token, hdr')

/-! ## Handler registry and external handler loading

The registry `token_handlers` is a fixed array of LUKS2_TOKENS_MAX slots
filled from index 0 (scans stop at the first nameless slot), so we model it
as the list of its filled prefix.  A loaded library is described by which of
the versioned ABI symbols it exports; the dynamic linker becomes the map
from library file names to such descriptions. -/

structure ExtLib where
  hasOpen : Bool := false
  hasBufferFree : Bool := false
  hasValidate : Bool := false
  hasDump : Bool := false
  hasOpenPin : Bool := false
  hasVersionSym : Bool := false
deriving Repr, DecidableEq

/-- One registered handler: its ABI generation, name, and capability set. -/
structure RegHandler where
  version : Nat
  name : String
  hasOpen : Bool
  hasOpenPin : Bool := false
  hasValidate : Bool := false
  hasDump : Bool := false
  hasBufferFree : Bool := false
  hasVersionSym : Bool := false
deriving Repr, DecidableEq

/-- Embeds `token_validate_v1`: the handler must carry a name (always true
of a constructed record, the C checks the pointer) and an `open` function. -/
def token_validate_v1 (h : RegHandler) : Bool :=
  h.hasOpen

/-- Embeds `token_validate_v2`: v1 shape plus the ABI `version` function. -/
def token_validate_v2 (h : RegHandler) : Bool :=
  token_validate_v1 h && h.hasVersionSym

/-- Embeds `external_token_name_valid`: non-empty, at most
LUKS2_TOKEN_NAME_MAX characters, only alphanumerics, `-` and `_`. -/
def external_token_name_valid (name : String) : Bool :=
  !name.isEmpty && decide (name.length ≤ LUKS2_TOKEN_NAME_MAX) &&
    name.toList.all (fun c => c.isAlphanum || c == '-' || c == '_')

/-- Conventional library file name built by `crypt_token_load_external`. -/
def tokenLibFileName (name : String) : String :=
  "libcryptsetup-token-" ++ name ++ ".so"

/-- Embeds `crypt_token_load_external`.  `dl` is the dynamic linker: the
optional symbol description of each library file name.  On any failure the
registry slot is wiped (`memset`) and the library released (`dlclose`), so
the result is just an error; on success the slot content is returned. -/
def crypt_token_load_external (dl : String → Option ExtLib) (name : String) :
    Except Int RegHandler :=
  if external_token_name_valid name = false then Except.error (-EINVAL)
  else if ("libcryptsetup-token-".length + name.length + ".so".length ≥ 512 : Prop) then
    Except.error (-EINVAL)
  else
    match dl (tokenLibFileName name) with
    | none => Except.error (-EINVAL)
    | some lib =>
      let h : RegHandler :=
        { version := 2, name := name, hasOpen := lib.hasOpen,
          hasOpenPin := lib.hasOpenPin, hasValidate := lib.hasValidate,
          hasDump := lib.hasDump, hasBufferFree := lib.hasBufferFree,
          hasVersionSym := lib.hasVersionSym }
      if token_validate_v2 h = false then Except.error (-EINVAL)
      else Except.ok h

/-- Scan of the filled registry prefix for a handler of the given name
(the `token_handlers` loop stopping at the first nameless slot). -/
def regFind (reg : List RegHandler) (type : String) : Option RegHandler :=
  match reg with
  | [] => none
  | h :: rest => if h.name = type then some h else regFind rest type

/-- Embeds `LUKS2_token_handler_type`: scan the filled registry prefix for
the name; on a miss, when a slot is free and the name is not reserved for
builtins, attempt the external load and cache the result in the first free
slot.  Returns the possibly grown registry together with the lookup result. -/
def LUKS2_token_handler_type (dl : String → Option ExtLib)
    (reg : List RegHandler) (type : String) :
    List RegHandler × Option RegHandler :=
  match regFind reg type with
  | some h => (reg, some h)
  | none =>
    if reg.length ≥ LUKS2_TOKENS_MAX then (reg, none)
    else if is_builtin_candidate type then (reg, none)
    else
      match crypt_token_load_external dl type with
      | Except.error _ => (reg, none)
      | Except.ok h => (reg ++ [h], some h)

/-! ## TPM2 token handler

Hex encoding used by the plugin (`bytes_to_hex`): two lowercase hex digits
per byte. -/

def hexDigitChar (n : Nat) : Char :=
  if n = 0 then '0' else if n = 1 then '1' else if n = 2 then '2'
  else if n = 3 then '3' else if n = 4 then '4' else if n = 5 then '5'
  else if n = 6 then '6' else if n = 7 then '7' else if n = 8 then '8'
  else if n = 9 then '9' else if n = 10 then 'a' else if n = 11 then 'b'
  else if n = 12 then 'c' else if n = 13 then 'd' else if n = 14 then 'e'
  else 'f'

def byteToHex (b : Nat) : List Char :=
  [hexDigitChar (b % 256 / 16), hexDigitChar (b % 16)]

/-- Embeds `bytes_to_hex` (utils_tpm2): hex string of a byte buffer. -/
def bytes_to_hex (bs : List Nat) : List Char :=
  bs.flatMap byteToHex

/-- Embeds `strncmp(a, b, n) == 0`: the first `n` characters agree (a hex
string contains no NUL, so comparison is plain prefix comparison). -/
def strncmpEq (a b : List Char) (n : Nat) : Bool :=
  a.take n == b.take n

/-- NV_NONCE_SIZE: byte length of the identification nonce. -/
def NV_NONCE_SIZE : Nat := 32

/-- Environment of one `tpm2_verify_tcti_for_token` call: outcomes of the
calls into the backend and the token store for the probed TCTI.
`nonceHexFromToken` is the `tpm2-nv-nonce` hex string of the record
(`none` models a record without it), `nvReadNonce` the NV_NONCE_SIZE bytes
delivered by `tpm_nv_read` on the nonce NV index (`none`: the read failed). -/
structure TpmVerifyEnv where
  initOk : Bool := true
  jsonGetRes : Int := 0
  tokenReadRes : Int := 0
  nonceHexFromToken : Option (List Char)
  callocOk : Bool := true
  nvReadNonce : Option (List Nat)

/-- Embeds `tpm2_verify_tcti_for_token`: read the nonce NV index with no PIN
under the fixed SHA1 bank policy and compare the hex encodings with
`strncmp(..., NV_NONCE_SIZE)`.  Every failure merely yields `false`. -/
def tpm2_verify_tcti_for_token (env : TpmVerifyEnv) : Bool :=
  if env.initOk = false then false
  else if env.jsonGetRes < 0 then false
  else
    match env.nonceHexFromToken with
    | none => false
    | some nonceStr =>
      if env.tokenReadRes < 0 then false
      else if env.callocOk = false then false
      else
        match env.nvReadNonce with
        | none => false
        | some bytes =>
          strncmpEq (bytes_to_hex bytes) nonceStr NV_NONCE_SIZE

/-- Fields of the TPM2 token record that `tpm2_token_open_pin_with_tcti`
reads back from the json metadata (`tpm2_token_read`). -/
structure Tpm2TokenRec where
  nvindex : Nat := 0
  pcrselection : Nat := 0
  pcrbanks : Nat := 0
  daprotect : Bool := false
  pin : Bool := false
  nvkeySize : Nat := 64
deriving Repr, DecidableEq

/-- Outcome of `tpm_nv_read` on the passphrase NV index: clean success, one
of the two session-1 authorization failures the plugin distinguishes
(TPM2_RC_S | TPM2_RC_1 | TPM2_RC_BAD_AUTH resp. TPM2_RC_AUTH_FAIL), or any
other backend failure. -/
inductive TpmNvReadRc where
  | success
  | badAuth
  | authFail
  | otherFail
deriving Repr, DecidableEq

/-- Environment of one `tpm2_token_open_pin_with_tcti` call. -/
structure Tpm2OpenEnv where
  verifyOk : Bool := true
  initOk : Bool := true
  jsonGetRes : Int := 0
  tokenReadRes : Int := 0
  tokRec : Tpm2TokenRec := {}
  mallocOk : Bool := true
  nvRead : TpmNvReadRc := TpmNvReadRc.success

/-- Result of the call: the return code and whether the dictionary-attack
rate-limit warning was printed before returning. -/
structure Tpm2OpenResult where
  r : Int
  warnedDA : Bool
deriving Repr, DecidableEq

/-- Embeds `tpm2_token_open_pin_with_tcti`: verify the TCTI binding, read
the record, fail `-EAGAIN` when a PIN is required but absent (after the DA
warning), then read the passphrase NV index mapping authorization failures
to `-EPERM` and any other read failure to `-EACCES`. -/
def tpm2_token_open_pin_with_tcti (env : Tpm2OpenEnv)
    (tpmPass : Option String) : Tpm2OpenResult :=
  if env.verifyOk = false then { r := -EINVAL, warnedDA := false }
  else if env.initOk = false then { r := -EACCES, warnedDA := false }
  else if env.jsonGetRes < 0 then { r := env.jsonGetRes, warnedDA := false }
  else if env.tokenReadRes < 0 then { r := env.tokenReadRes, warnedDA := false }
  else if env.tokRec.pin ∧ tpmPass.isNone then
    { r := -EAGAIN, warnedDA := env.tokRec.daprotect }
  else if env.mallocOk = false then { r := -ENOMEM, warnedDA := false }
  else
    match env.nvRead with
    | TpmNvReadRc.success => { r := 0, warnedDA := false }
    | TpmNvReadRc.badAuth => { r := -EPERM, warnedDA := false }
    | TpmNvReadRc.authFail => { r := -EPERM, warnedDA := false }
    | TpmNvReadRc.otherFail => { r := -EACCES, warnedDA := false }

/-! ## TPM2 token creation with rollback

Provisioning state touched by `crypt_token_create` (tpm2 plugin): which of
the two NV indices are defined, whether the keyslot and token record were
added, and whether the keyslot got bound to the token. -/

structure TpmProvisionState where
  secretNVDefined : Bool := false
  nonceNVDefined : Bool := false
  keyslotAdded : Bool := false
  tokenAdded : Bool := false
  keyslotBound : Bool := false
deriving Repr, DecidableEq

/-- The fully unprovisioned state. -/
def tpmClean : TpmProvisionState := {}

/-- Environment of one `crypt_token_create` call on validated arguments:
result of each call into the backend, the CLI prompt layer and the LUKS2
core, in program order.  Negative results are failures with that code;
`keyslotAddRes`, `tokenAddRes` and `assignRes` return ids on success. -/
structure TpmCreateEnv where
  initOk : Bool := true
  pcrCapQueryOk : Bool := true
  supportsAlgsForPcrs : Bool := true
  allocRandomPassOk : Bool := true
  getRandomPassRes : Int := 0
  allocNonceOk : Bool := true
  getRandomNonceRes : Int := 0
  existingPassRes : Int := 0
  noTpmPin : Bool := false
  pinPromptRes : Int := 0
  secretNvWriteRes : Int := 0
  nonceNvWriteRes : Int := 0
  keyslotAddRes : Int := 0
  tokenAddRes : Int := 0
  assignRes : Int := 1

/-- Embeds `crypt_token_create` of the tpm2 plugin, for a context in state
CREATE_VALID, as a function from the call environment to the produced
return code and final provisioning state.  Failure branches replicate the
source's goto chain: `err_keyslot_created` destroys the keyslot, then
`err_nonce_nv_defined` undefines the nonce NV index, then
`err_pass_nv_defined` undefines the passphrase NV index, in that order. -/
def tpm2_crypt_token_create (env : TpmCreateEnv) : Int × TpmProvisionState :=
  if env.initOk = false then (-EINVAL, tpmClean)
  else if env.pcrCapQueryOk = false then (-ECOMM, tpmClean)
  else if env.supportsAlgsForPcrs = false then (-ENOTSUP, tpmClean)
  else if env.allocRandomPassOk = false then (-ENOMEM, tpmClean)
  else if env.getRandomPassRes < 0 then (env.getRandomPassRes, tpmClean)
  else if env.allocNonceOk = false then (-ENOMEM, tpmClean)
  else if env.getRandomNonceRes < 0 then (env.getRandomNonceRes, tpmClean)
  else if env.existingPassRes < 0 then (env.existingPassRes, tpmClean)
  else if env.noTpmPin = false ∧ env.pinPromptRes < 0 then
    (env.pinPromptRes, tpmClean)
  else if env.secretNvWriteRes < 0 then
    -- goto out: nothing was provisioned yet
    (env.secretNvWriteRes, tpmClean)
  else
    let s1 : TpmProvisionState := { secretNVDefined := true }
    if env.nonceNvWriteRes < 0 then
      -- err_pass_nv_defined
      (env.nonceNvWriteRes, { s1 with secretNVDefined := false })
    else
      let s2 : TpmProvisionState := { s1 with nonceNVDefined := true }
      if env.keyslotAddRes < 0 then
        -- err_nonce_nv_defined, then err_pass_nv_defined
        (env.keyslotAddRes,
          { s2 with nonceNVDefined := false, secretNVDefined := false })
      else
        let s3 : TpmProvisionState := { s2 with keyslotAdded := true }
        if env.tokenAddRes < 0 then
          -- err_keyslot_created and the full undefine chain
          (env.tokenAddRes,
            { s3 with keyslotAdded := false, nonceNVDefined := false,
                      secretNVDefined := false })
        else
          let s4 : TpmProvisionState := { s3 with tokenAdded := true }
          if env.assignRes < 0 then
            -- crypt_token_json_set(cd, token, NULL), then err_keyslot_created
            (env.assignRes,
              { s4 with tokenAdded := false, keyslotAdded := false,
                        nonceNVDefined := false, secretNVDefined := false })
          else
            (if env.assignRes > 0 then 0 else env.assignRes,
              { s4 with keyslotBound := true })

/-! ## Theorems -/

/-- Lookup by key in an association list succeeds exactly when the key is
among the keys. -/
theorem assocFind_isSome_iff (l : List (Int × LUKS2Token)) (x : Int) :
    (assocFind l x).isSome ↔ x ∈ l.map Prod.fst := by
  induction l with
  | nil => simp [assocFind]
  | cons p l ih =>
    by_cases h : p.1 = x
    · simp [assocFind, h]
    · rw [assocFind, if_neg h, ih]
      simp only [List.map_cons, List.mem_cons]
      constructor
      · exact Or.inr
      · rintro (he | hm)
        · exact absurd he.symm h
        · exact hm

/-- Lookup in the tokens map succeeds exactly when the id is among the keys. -/
theorem get_token_jobj_isSome_iff (hdr : LUKS2Hdr) (x : Int) :
    (LUKS2_get_token_jobj hdr x).isSome ↔ x ∈ hdr.tokens.map Prod.fst :=
  assocFind_isSome_iff hdr.tokens x

/-- Value-rewriting of the tokens map leaves key structure untouched. -/
theorem mapFst_modList (l : List (Int × LUKS2Token)) (t : Int)
    (f : LUKS2Token → LUKS2Token) :
    (l.map (fun p => if p.1 = t then (p.1, f p.2) else p)).map Prod.fst =
      l.map Prod.fst := by
  induction l with
  | nil => rfl
  | cons p l ih =>
    simp only [List.map_cons, ih]
    by_cases h : p.1 = t
    · simp [h]
    · simp [h]

/-- Keys of the header tokens map survive `tokenModify`. -/
theorem tokenModify_mapFst (hdr : LUKS2Hdr) (t : Int)
    (f : LUKS2Token → LUKS2Token) :
    (tokenModify hdr t f).tokens.map Prod.fst = hdr.tokens.map Prod.fst :=
  mapFst_modList hdr.tokens t f

/-- If the first record under key `t` is `tok`, after rewriting it is `f tok`. -/
theorem assocFind_modList_self (l : List (Int × LUKS2Token)) (t : Int)
    (f : LUKS2Token → LUKS2Token) (tok : LUKS2Token)
    (h : assocFind l t = some tok) :
    assocFind (l.map (fun p => if p.1 = t then (p.1, f p.2) else p)) t =
      some (f tok) := by
  induction l with
  | nil => simp [assocFind] at h
  | cons p l ih =>
    by_cases hp : p.1 = t
    · rw [assocFind, if_pos hp] at h
      cases h
      simp [assocFind, hp]
    · rw [assocFind, if_neg hp] at h
      simp only [List.map_cons, if_neg hp]
      rw [assocFind, if_neg hp]
      exact ih h

/-- Lookup after `tokenModify` at the modified id. -/
theorem get_token_jobj_tokenModify_self (hdr : LUKS2Hdr) (t : Int)
    (f : LUKS2Token → LUKS2Token) (tok : LUKS2Token)
    (h : LUKS2_get_token_jobj hdr t = some tok) :
    LUKS2_get_token_jobj (tokenModify hdr t f) t = some (f tok) :=
  assocFind_modList_self hdr.tokens t f tok h

/-- Claim C1 counterexample: for the external type "acme" (no builtin
name-space tag), the handler outcome Invalid (`-EINVAL`) does not pass
through unchanged but is translated to `-EPERM`, while the outcome
`-EACCES` (neither success nor Invalid/NotFound) is not translated to
`-EPERM` but passes through — the opposite of the claimed partition. -/
theorem C1_counterexample_translate_errno :
    is_builtin_candidate "acme" = false ∧
    translate_errno (-EINVAL) "acme" ≠ -EINVAL ∧
    translate_errno (-EINVAL) "acme" = -EPERM ∧
    translate_errno (-EACCES) "acme" ≠ -EPERM ∧
    translate_errno (-EACCES) "acme" = -EACCES := by
  refine ⟨by decide, by decide, by decide, by decide, by decide⟩

/-- Claim C1 (amended): during activation the result of an external,
non-builtin handler's `open`/`open_pin` is fed through `translate_errno`,
which coerces every positive result and the reserved codes
Invalid (`-EINVAL`) and NotFound (`-ENOENT`) to PermissionDenied
(`-EPERM`); clean success (0) and every other negative code pass through
unchanged; builtin handlers' results are never translated. -/
theorem C1_translate_errno_amended :
    (∀ (r : Int) (type : String), is_builtin_candidate type = true →
        translate_errno r type = r) ∧
    (∀ (r : Int) (type : String), is_builtin_candidate type = false →
        (r = 0 → translate_errno r type = 0) ∧
        (r > 0 → translate_errno r type = -EPERM) ∧
        (r = -EINVAL ∨ r = -ENOENT → translate_errno r type = -EPERM) ∧
        (r < 0 → r ≠ -EINVAL → r ≠ -ENOENT → translate_errno r type = r)) ∧
    (∀ (env : ActEnv) (hdr : LUKS2Hdr) (token : Int) (tok : LUKS2Token)
        (h : Handler),
        LUKS2_get_token_jobj hdr token = some tok →
        env.handlers tok.ttype = some h →
        (h.hasValidate = true → h.validateOk tok = true) →
        tok.keyslots ≠ [] →
        0 ≤ token →
        (LUKS2_token_open env hdr token tok none CRYPT_ANY_SEGMENT none).1 =
          translate_errno (h.openRes token).1 h.name ∧
        (∀ pin : String, h.hasOpenPin = true →
          (LUKS2_token_open env hdr token tok none CRYPT_ANY_SEGMENT
              (some pin)).1 =
            translate_errno (h.openPinRes token pin).1 h.name)) := by
  refine ⟨?_, ?_, ?_⟩
  · intro r type hb
    simp [translate_errno, hb]
  · intro r type hb
    refine ⟨?_, ?_, ?_, ?_⟩
    · intro h0
      simp [translate_errno, hb, h0, EPERM, EINVAL, ENOENT]
    · intro hpos
      simp [translate_errno, hb, hpos]
    · intro hor
      simp [translate_errno, hb, hor]
    · intro hneg h1 h2
      have : ¬ (r > 0 ∨ r = -EINVAL ∨ r = -ENOENT) := by
        push_neg
        exact ⟨by omega, h1, h2⟩
      simp [translate_errno, hb, this]
  · intro env hdr token tok h hfind hh hval hks htok
    have hlen : ¬ (tok.keyslots.length ≤ 0) := by
      have := List.length_pos.mpr hks
      omega
    have hseg : token_for_segment env tok CRYPT_ANY_SEGMENT = 0 := by
      simp [token_for_segment, CRYPT_ANY_SEGMENT, hlen]
    have hhandler : LUKS2_token_handler env hdr token = some h := by
      simp [LUKS2_token_handler, not_lt.mpr htok, hfind, hh]
    have hvgate : ¬ (h.hasValidate = true ∧ h.validateOk tok = false) := by
      rintro ⟨hv1, hv2⟩
      rw [hval hv1] at hv2
      simp at hv2
    constructor
    · rcases ho : h.openRes token with ⟨rv, buf⟩
      simp [LUKS2_token_open, tokenOpenBody, hseg, hhandler, hvgate, ho]
    · intro pin hpin
      rcases ho : h.openPinRes token pin with ⟨rv, buf⟩
      simp [LUKS2_token_open, tokenOpenBody, hseg, hhandler, hvgate, hpin, ho]

/-- Witness for C1: a concrete external handler whose `open` reports
`-EACCES`; the activation path hands exactly `-EACCES` to the caller. -/
theorem C1_translate_errno_amended_witness :
    (LUKS2_token_open
        { handlers := fun s =>
            if s = "acme" then
              some { name := "acme", openRes := fun _ => (-EACCES, 7) }
            else none }
        { tokens := [(0, { ttype := "acme", keyslots := [1] })], keyslotIds := [1] }
        0 { ttype := "acme", keyslots := [1] } none CRYPT_ANY_SEGMENT none).1 =
      -EACCES := by
  have h := (C1_translate_errno_amended.2.2
      { handlers := fun s =>
          if s = "acme" then
            some { name := "acme", openRes := fun _ => (-EACCES, 7) }
          else none }
      { tokens := [(0, { ttype := "acme", keyslots := [1] })], keyslotIds := [1] }
      0 { ttype := "acme", keyslots := [1] }
      { name := "acme", openRes := fun _ => (-EACCES, 7) }
      rfl rfl (by simp) (by simp) (by decide)).1
  rw [h]
  decide

/-- Claim C10: `LUKS2_token_create` called with `token = CRYPT_ANY_TOKEN` and
a NULL json document (a deletion request with no concrete id) fails with
`-EINVAL` and leaves the header untouched. -/
theorem C10_create_any_with_null_json :
    ∀ (handlers : String → Option Handler) (hdr : LUKS2Hdr) (commit : Bool),
      LUKS2_token_create handlers hdr CRYPT_ANY_TOKEN none commit =
        (-EINVAL, hdr) := by
  intro handlers hdr commit
  simp [LUKS2_token_create]

/-- Claim C3: device-binding verification compares the hex encodings with
`strncmp(..., NV_NONCE_SIZE)`, i.e. 32 hex characters = only the first 16 of
the 32 nonce bytes.  A backend nonce agreeing with the record on the first
16 bytes but differing in byte 16 still verifies as bound, although the
spec requires a mismatch in any byte to fail. -/
theorem C3_verify_halfwidth_comparison_bug :
    ((List.range 32).map (fun i => if i = 16 then 255 else i) ≠ List.range 32) ∧
    tpm2_verify_tcti_for_token
      { nonceHexFromToken := some (bytes_to_hex (List.range 32)),
        nvReadNonce :=
          some ((List.range 32).map (fun i => if i = 16 then 255 else i)) } =
      true := by
  constructor
  · decide
  · decide

/-- Claim C9: with the record's PIN flag set and no PIN supplied, open_pin
returns `-EAGAIN` (TryAgain), not `-EPERM`, and the dictionary-attack
rate-limit warning is printed exactly when DA protection is recorded; with a
PIN supplied, a backend authorization failure maps to `-EPERM`
(PermissionDenied) and every other backend read failure to `-EACCES`
(AccessDenied). -/
theorem C9_open_pin_error_codes :
    ∀ (env : Tpm2OpenEnv) (pass : Option String),
      env.verifyOk = true → env.initOk = true →
      0 ≤ env.jsonGetRes → 0 ≤ env.tokenReadRes →
      ((env.tokRec.pin = true → pass = none →
          tpm2_token_open_pin_with_tcti env pass =
            { r := -EAGAIN, warnedDA := env.tokRec.daprotect }) ∧
       (∀ p : String, pass = some p → env.mallocOk = true →
          ((env.nvRead = TpmNvReadRc.badAuth ∨ env.nvRead = TpmNvReadRc.authFail) →
            (tpm2_token_open_pin_with_tcti env pass).r = -EPERM) ∧
          (env.nvRead = TpmNvReadRc.otherFail →
            (tpm2_token_open_pin_with_tcti env pass).r = -EACCES))) := by
  intro env pass hv hi hj ht
  constructor
  · intro hpin hnone
    subst hnone
    simp [tpm2_token_open_pin_with_tcti, hv, hi, not_lt.mpr hj, not_lt.mpr ht,
      hpin]
  · intro p hp hm
    subst hp
    refine ⟨?_, ?_⟩
    · rintro (hn | hn) <;>
        simp [tpm2_token_open_pin_with_tcti, hv, hi, not_lt.mpr hj,
          not_lt.mpr ht, hm, hn]
    · intro hn
      simp [tpm2_token_open_pin_with_tcti, hv, hi, not_lt.mpr hj,
        not_lt.mpr ht, hm, hn]

/-- Witness for C9 at concrete environments: a PIN-protected record with DA
protection and no PIN gives TryAgain with the warning; with a PIN, the two
read outcomes give PermissionDenied resp. AccessDenied. -/
theorem C9_open_pin_error_codes_witness :
    tpm2_token_open_pin_with_tcti
        { tokRec := { pin := true, daprotect := true } } none =
      { r := -EAGAIN, warnedDA := true } ∧
    (tpm2_token_open_pin_with_tcti { nvRead := TpmNvReadRc.badAuth }
        (some "p")).r = -EPERM ∧
    (tpm2_token_open_pin_with_tcti { nvRead := TpmNvReadRc.otherFail }
        (some "p")).r = -EACCES := by
  refine ⟨?_, ?_, ?_⟩
  · exact (C9_open_pin_error_codes
        { tokRec := { pin := true, daprotect := true } } none
        rfl rfl (by decide) (by decide)).1 rfl rfl
  · exact (((C9_open_pin_error_codes { nvRead := TpmNvReadRc.badAuth }
        (some "p") rfl rfl (by decide) (by decide)).2 "p" rfl rfl).1
        (Or.inl rfl))
  · exact (((C9_open_pin_error_codes { nvRead := TpmNvReadRc.otherFail }
        (some "p") rfl rfl (by decide) (by decide)).2 "p" rfl rfl).2 rfl)

/-- Every branch of the embedded tpm2 create either leaves the clean state
or returns a non-negative code. -/
theorem tpm2_create_cases (env : TpmCreateEnv) :
    (tpm2_crypt_token_create env).2 = tpmClean ∨
      0 ≤ (tpm2_crypt_token_create env).1 := by
  unfold tpm2_crypt_token_create
  by_cases h1 : env.initOk = false
  · rw [if_pos h1]; left; rfl
  rw [if_neg h1]
  by_cases h2 : env.pcrCapQueryOk = false
  · rw [if_pos h2]; left; rfl
  rw [if_neg h2]
  by_cases h3 : env.supportsAlgsForPcrs = false
  · rw [if_pos h3]; left; rfl
  rw [if_neg h3]
  by_cases h4 : env.allocRandomPassOk = false
  · rw [if_pos h4]; left; rfl
  rw [if_neg h4]
  by_cases h5 : env.getRandomPassRes < 0
  · rw [if_pos h5]; left; rfl
  rw [if_neg h5]
  by_cases h6 : env.allocNonceOk = false
  · rw [if_pos h6]; left; rfl
  rw [if_neg h6]
  by_cases h7 : env.getRandomNonceRes < 0
  · rw [if_pos h7]; left; rfl
  rw [if_neg h7]
  by_cases h8 : env.existingPassRes < 0
  · rw [if_pos h8]; left; rfl
  rw [if_neg h8]
  by_cases h9 : env.noTpmPin = false ∧ env.pinPromptRes < 0
  · rw [if_pos h9]; left; rfl
  rw [if_neg h9]
  by_cases h10 : env.secretNvWriteRes < 0
  · rw [if_pos h10]; left; rfl
  rw [if_neg h10]
  by_cases h11 : env.nonceNvWriteRes < 0
  · rw [if_pos h11]; left; rfl
  rw [if_neg h11]
  by_cases h12 : env.keyslotAddRes < 0
  · rw [if_pos h12]; left; rfl
  rw [if_neg h12]
  by_cases h13 : env.tokenAddRes < 0
  · rw [if_pos h13]; left; rfl
  rw [if_neg h13]
  by_cases h14 : env.assignRes < 0
  · rw [if_pos h14]; left; rfl
  rw [if_neg h14]
  right
  dsimp only
  omega

/-- Claim C5: TPM token create is all-or-nothing.  Whenever the call returns
an error, the final provisioning state equals the initial one: the goto
chain destroys the keyslot, undefines the nonce NV index and undefines the
passphrase NV index (in reverse order of their creation) before returning. -/
theorem C5_tpm2_create_all_or_nothing :
    ∀ env : TpmCreateEnv, (tpm2_crypt_token_create env).1 < 0 →
      (tpm2_crypt_token_create env).2 = tpmClean := by
  intro env h
  rcases tpm2_create_cases env with hc | hc
  · exact hc
  · omega

/-- Witness for C5: a failing token-record add rolls everything back. -/
theorem C5_tpm2_create_all_or_nothing_witness :
    (tpm2_crypt_token_create { tokenAddRes := -EINVAL }).2 = tpmClean :=
  C5_tpm2_create_all_or_nothing { tokenAddRes := -EINVAL } (by decide)

/-- On an existing token, a single bind/unbind always succeeds and only
rewrites that token's value: the keys of the token map and the keyslot area
are untouched. -/
theorem assign_one_keyslot_ok (hdr : LUKS2Hdr) (t k : Int) (a : Bool)
    (h : (LUKS2_get_token_jobj hdr t).isSome) :
    (assign_one_keyslot hdr t k a).1 = 0 ∧
      (assign_one_keyslot hdr t k a).2.tokens.map Prod.fst =
        hdr.tokens.map Prod.fst ∧
      (assign_one_keyslot hdr t k a).2.keyslotIds = hdr.keyslotIds := by
  unfold assign_one_keyslot
  cases hm : LUKS2_get_token_jobj hdr t with
  | none => rw [hm] at h; simp at h
  | some tok =>
    cases a
    · exact ⟨rfl, tokenModify_mapFst hdr t _, rfl⟩
    · exact ⟨rfl, tokenModify_mapFst hdr t _, rfl⟩

/-- The all-keyslots loop of `assign_one_token` never fails on an existing
token and preserves the token-map keys. -/
theorem assignKeyslotsLoop_ok (t : Int) (a : Bool) (ks : List Int)
    (hdr : LUKS2Hdr) (h : (LUKS2_get_token_jobj hdr t).isSome) :
    (assignKeyslotsLoop t a ks hdr).1 = 0 ∧
      (assignKeyslotsLoop t a ks hdr).2.tokens.map Prod.fst =
        hdr.tokens.map Prod.fst := by
  induction ks generalizing hdr with
  | nil => exact ⟨rfl, rfl⟩
  | cons k rest ih =>
    obtain ⟨h0, hkeys, -⟩ := assign_one_keyslot_ok hdr t k a h
    simp only [assignKeyslotsLoop]
    rcases he : assign_one_keyslot hdr t k a with ⟨r, hdr2⟩
    rw [he] at h0 hkeys
    dsimp at h0 hkeys
    subst h0
    rw [if_neg (by omega : ¬ ((0 : Int) < 0))]
    have h2 : (LUKS2_get_token_jobj hdr2 t).isSome := by
      rw [get_token_jobj_isSome_iff] at h ⊢
      rw [hkeys]
      exact h
    obtain ⟨i1, i2⟩ := ih hdr2 h2
    exact ⟨i1, i2.trans hkeys⟩

/-- `assign_one_token` on an existing token always succeeds and preserves
the token-map keys. -/
theorem assign_one_token_ok (hdr : LUKS2Hdr) (k t : Int) (a : Bool)
    (h : (LUKS2_get_token_jobj hdr t).isSome) :
    (assign_one_token hdr k t a).1 = 0 ∧
      (assign_one_token hdr k t a).2.tokens.map Prod.fst =
        hdr.tokens.map Prod.fst := by
  have hnn : ¬ ((LUKS2_get_token_jobj hdr t).isNone = true) := by
    cases hm : LUKS2_get_token_jobj hdr t
    · rw [hm] at h; simp at h
    · simp
  unfold assign_one_token
  rw [if_neg hnn]
  by_cases hk : k = CRYPT_ANY_SLOT
  · rw [if_pos hk]
    exact assignKeyslotsLoop_ok t a hdr.keyslotIds hdr h
  · rw [if_neg hk]
    obtain ⟨h1, h2, -⟩ := assign_one_keyslot_ok hdr t k a h
    exact ⟨h1, h2⟩

/-- When `assign_one_token` fails the header is untouched. -/
theorem assign_one_token_error (hdr : LUKS2Hdr) (k t : Int) (a : Bool)
    (h : (assign_one_token hdr k t a).1 < 0) :
    (assign_one_token hdr k t a).2 = hdr := by
  by_cases hs : (LUKS2_get_token_jobj hdr t).isSome
  · have := (assign_one_token_ok hdr k t a hs).1
    omega
  · cases hm : LUKS2_get_token_jobj hdr t with
    | some v => rw [hm] at hs; simp at hs
    | none =>
      unfold assign_one_token
      rw [hm]
      simp

/-- The token loop of `LUKS2_token_assign` for CRYPT_ANY_TOKEN never fails
when every listed id is a key of the map, and preserves the keys. -/
theorem assignTokensLoop_ok (k : Int) (a : Bool) (ts : List Int)
    (hdr : LUKS2Hdr) (h : ∀ t ∈ ts, t ∈ hdr.tokens.map Prod.fst) :
    (assignTokensLoop k a ts hdr).1 = 0 ∧
      (assignTokensLoop k a ts hdr).2.tokens.map Prod.fst =
        hdr.tokens.map Prod.fst := by
  induction ts generalizing hdr with
  | nil => exact ⟨rfl, rfl⟩
  | cons t rest ih =>
    have hs : (LUKS2_get_token_jobj hdr t).isSome :=
      (get_token_jobj_isSome_iff hdr t).mpr (h t (by simp))
    obtain ⟨h0, hkeys⟩ := assign_one_token_ok hdr k t a hs
    simp only [assignTokensLoop]
    rcases he : assign_one_token hdr k t a with ⟨r, hdr2⟩
    rw [he] at h0 hkeys
    dsimp at h0 hkeys
    subst h0
    rw [if_neg (by omega : ¬ ((0 : Int) < 0))]
    have h2 : ∀ x ∈ rest, x ∈ hdr2.tokens.map Prod.fst := by
      intro x hx
      rw [hkeys]
      exact h x (by simp [hx])
    obtain ⟨i1, i2⟩ := ih hdr2 h2
    exact ⟨i1, i2.trans hkeys⟩

/-- The copy loop of `LUKS2_token_assignment_copy` never returns an error:
each token it touches was found assigned, hence exists. -/
theorem copyAssignLoop_ok (kf kt : Int) (l : List Int) (hdr : LUKS2Hdr) :
    (copyAssignLoop kf kt l hdr).1 = 0 := by
  induction l generalizing hdr with
  | nil => rfl
  | cons i rest ih =>
    simp only [copyAssignLoop]
    by_cases hass : token_is_assigned hdr kf i = 0
    · rw [if_pos hass]
      have hs : (LUKS2_get_token_jobj hdr i).isSome := by
        unfold token_is_assigned at hass
        cases hm : LUKS2_get_token_jobj hdr i with
        | none =>
          rw [hm] at hass
          dsimp at hass
          exact absurd hass (by decide)
        | some v => simp
      obtain ⟨h0, -⟩ := assign_one_token_ok hdr kt i true hs
      rcases he : assign_one_token hdr kt i true with ⟨r, hdr2⟩
      rw [he] at h0
      dsimp at h0
      subst h0
      rw [if_neg (by omega : ¬ ((0 : Int) ≠ 0))]
      exact ih hdr2
    · rw [if_neg hass]
      exact ih hdr

/-- Claim C2: `LUKS2_token_assignment_copy` and bulk `LUKS2_token_assign`
are atomic with respect to partial failure: whenever the operation returns
anything other than its success value (0 for the copy, the `token` argument
for assign), no token's `keyslots` set has been changed — the header is
exactly the input header. -/
theorem C2_assignment_atomicity :
    (∀ (hdr : LUKS2Hdr) (kf kt : Int) (commit : Bool),
        (LUKS2_token_assignment_copy hdr kf kt commit).1 < 0 →
        (LUKS2_token_assignment_copy hdr kf kt commit).2 = hdr) ∧
    (∀ (hdr : LUKS2Hdr) (k t : Int) (a commit : Bool),
        (LUKS2_token_assign hdr k t a commit).1 ≠ t →
        (LUKS2_token_assign hdr k t a commit).2 = hdr) := by
  constructor
  · intro hdr kf kt commit h
    unfold LUKS2_token_assignment_copy at h ⊢
    by_cases h1 : kf < 0 ∨ kf ≥ Int.ofNat LUKS2_KEYSLOTS_MAX ∨
        kt < 0 ∨ kt ≥ Int.ofNat LUKS2_KEYSLOTS_MAX
    · rw [if_pos h1]
    rw [if_neg h1] at h ⊢
    dsimp only at h ⊢
    by_cases h2 : LUKS2_tokens_count hdr ≤ 0
    · rw [if_pos h2]
    rw [if_neg h2] at h ⊢
    have h0 := copyAssignLoop_ok kf kt
      ((List.range LUKS2_TOKENS_MAX).map Int.ofNat) hdr
    omega
  · intro hdr k t a commit h
    unfold LUKS2_token_assign at h ⊢
    by_cases ht : t = CRYPT_ANY_TOKEN
    · rw [if_pos ht] at h ⊢
      dsimp only at h ⊢
      obtain ⟨h0, -⟩ := assignTokensLoop_ok k a (hdr.tokens.map (fun p => p.1))
        hdr (fun x hx => hx)
      rw [h0] at h
      rw [if_neg (by omega : ¬ ((0 : Int) < 0))] at h
      simp at h
    · rw [if_neg ht] at h ⊢
      by_cases hs : (LUKS2_get_token_jobj hdr t).isSome
      · dsimp only at h ⊢
        obtain ⟨h0, -⟩ := assign_one_token_ok hdr k t a hs
        rw [h0] at h
        rw [if_neg (by omega : ¬ ((0 : Int) < 0))] at h
        simp at h
      · have hnone : LUKS2_get_token_jobj hdr t = none := by
          cases hm : LUKS2_get_token_jobj hdr t with
          | some v => rw [hm] at hs; simp at hs
          | none => rfl
        have he : assign_one_token hdr k t a = (-EINVAL, hdr) := by
          unfold assign_one_token
          rw [hnone]
          simp
        dsimp only at h ⊢
        rw [he]
        dsimp only
        rw [if_pos (by decide : (-EINVAL : Int) < 0)]

/-- Witness for C2 at concrete inputs: an out-of-range source keyslot fails
the copy with the header untouched, and assigning to a missing token id
fails with the header untouched. -/
theorem C2_assignment_atomicity_witness :
    (LUKS2_token_assignment_copy
        { tokens := [(0, { ttype := "acme", keyslots := [] })], keyslotIds := [] }
        (-3) 1 false).2 =
      { tokens := [(0, { ttype := "acme", keyslots := [] })], keyslotIds := [] } ∧
    (LUKS2_token_assign
        { tokens := [(0, { ttype := "acme", keyslots := [] })], keyslotIds := [] }
        1 5 true false).2 =
      { tokens := [(0, { ttype := "acme", keyslots := [] })], keyslotIds := [] } := by
  constructor
  · exact C2_assignment_atomicity.1
      { tokens := [(0, { ttype := "acme", keyslots := [] })], keyslotIds := [] }
      (-3) 1 false (by decide)
  · exact C2_assignment_atomicity.2
      { tokens := [(0, { ttype := "acme", keyslots := [] })], keyslotIds := [] }
      1 5 true false (by decide)

/-- Rewriting entries under an absent key changes nothing. -/
theorem modList_eq_self_of_not_mem (l : List (Int × LUKS2Token)) (t : Int)
    (f : LUKS2Token → LUKS2Token) (h : t ∉ l.map Prod.fst) :
    l.map (fun p => if p.1 = t then (p.1, f p.2) else p) = l := by
  induction l with
  | nil => rfl
  | cons p l ih =>
    simp only [List.map_cons, List.mem_cons, not_or] at h
    simp only [List.map_cons, if_neg (fun he : p.1 = t => h.1 he.symm)]
    rw [ih h.2]

/-- With unique keys, rewriting the stored record to itself is the identity
on the tokens list. -/
theorem modList_eq_self (l : List (Int × LUKS2Token)) (t : Int)
    (f : LUKS2Token → LUKS2Token) (tok : LUKS2Token)
    (hnd : (l.map Prod.fst).Nodup) (hfind : assocFind l t = some tok)
    (hf : f tok = tok) :
    l.map (fun p => if p.1 = t then (p.1, f p.2) else p) = l := by
  induction l with
  | nil => rfl
  | cons p l ih =>
    simp only [List.map_cons, List.nodup_cons] at hnd
    by_cases hp : p.1 = t
    · have hpt : p.2 = tok := by
        rw [assocFind, if_pos hp] at hfind
        exact Option.some.inj hfind
      have hfp : f p.2 = p.2 := by rw [hpt]; exact hf
      simp only [List.map_cons, if_pos hp]
      rw [hfp]
      rw [modList_eq_self_of_not_mem l t f (hp ▸ hnd.1)]
    · rw [assocFind, if_neg hp] at hfind
      simp only [List.map_cons, if_neg hp]
      rw [ih hnd.2 hfind]

/-- `tokenModify` with a pointwise-identity rewrite is the identity (unique
keys). -/
theorem tokenModify_eq_self (hdr : LUKS2Hdr) (t : Int)
    (f : LUKS2Token → LUKS2Token) (tok : LUKS2Token)
    (hnd : (hdr.tokens.map Prod.fst).Nodup)
    (hfind : LUKS2_get_token_jobj hdr t = some tok) (hf : f tok = tok) :
    tokenModify hdr t f = hdr := by
  unfold tokenModify
  rw [modList_eq_self hdr.tokens t f tok hnd hfind hf]

/-- Computation of `assign_one_keyslot` in the bind direction on an existing
token. -/
theorem assign_one_keyslot_bind (hdr : LUKS2Hdr) (t k : Int)
    (tok : LUKS2Token) (hfind : LUKS2_get_token_jobj hdr t = some tok) :
    assign_one_keyslot hdr t k true =
      (0, tokenModify hdr t (fun tok' =>
        if k ∈ tok'.keyslots then tok'
        else { tok' with keyslots := tok'.keyslots ++ [k] })) := by
  unfold assign_one_keyslot
  rw [hfind]
  rfl

/-- Computation of `assign_one_keyslot` in the unbind direction on an
existing token. -/
theorem assign_one_keyslot_unbind (hdr : LUKS2Hdr) (t k : Int)
    (tok : LUKS2Token) (hfind : LUKS2_get_token_jobj hdr t = some tok) :
    assign_one_keyslot hdr t k false =
      (0, tokenModify hdr t (fun tok' =>
        if k ∈ tok'.keyslots then
          { tok' with keyslots := tok'.keyslots.erase k }
        else tok')) := by
  unfold assign_one_keyslot
  rw [hfind]
  rfl

/-- Computation of `LUKS2_token_assign` for one concrete keyslot and one
existing concrete token. -/
theorem token_assign_single (hdr : LUKS2Hdr) (k t : Int) (a commit : Bool)
    (hk : k ≠ CRYPT_ANY_SLOT) (ht : t ≠ CRYPT_ANY_TOKEN)
    (hs : (LUKS2_get_token_jobj hdr t).isSome) :
    LUKS2_token_assign hdr k t a commit =
      (t, (assign_one_keyslot hdr t k a).2) := by
  have hnn : ¬ ((LUKS2_get_token_jobj hdr t).isNone = true) := by
    cases hm : LUKS2_get_token_jobj hdr t
    · rw [hm] at hs; simp at hs
    · simp
  obtain ⟨h0, -, -⟩ := assign_one_keyslot_ok hdr t k a hs
  unfold LUKS2_token_assign assign_one_token
  rw [if_neg ht, if_neg hnn, if_neg hk]
  dsimp only
  rw [h0]
  rw [if_neg (by omega : ¬ ((0 : Int) < 0))]

/-- Claim C8: for every existing token and in-range keyslot, binding makes
`is_assigned` report 0, a subsequent unbinding makes it report `-ENOENT`,
and unbinding a pair that is not bound succeeds as a no-op, leaving the
header untouched.  The header carries the json-object invariants: unique
token keys and duplicate-free keyslot references. -/
theorem C8_bind_unbind_is_assigned :
    ∀ (hdr : LUKS2Hdr) (t k : Int) (tok : LUKS2Token),
      LUKS2_get_token_jobj hdr t = some tok →
      0 ≤ k → k < Int.ofNat LUKS2_KEYSLOTS_MAX →
      0 ≤ t → t < Int.ofNat LUKS2_TOKENS_MAX →
      tok.keyslots.Nodup →
      (hdr.tokens.map Prod.fst).Nodup →
      ((LUKS2_token_assign hdr k t true false).1 = t ∧
        LUKS2_token_is_assigned (LUKS2_token_assign hdr k t true false).2 k t
          = 0 ∧
        (LUKS2_token_assign (LUKS2_token_assign hdr k t true false).2 k t
          false false).1 = t ∧
        LUKS2_token_is_assigned
          (LUKS2_token_assign (LUKS2_token_assign hdr k t true false).2 k t
            false false).2 k t = -ENOENT) ∧
      (LUKS2_token_is_assigned hdr k t = -ENOENT →
        LUKS2_token_assign hdr k t false false = (t, hdr)) := by
  intro hdr t k tok hfind hk0 hk1 ht0 ht1 hndks hndkeys
  have hkany : k ≠ CRYPT_ANY_SLOT := by
    simp only [CRYPT_ANY_SLOT]; omega
  have htany : t ≠ CRYPT_ANY_TOKEN := by
    simp only [CRYPT_ANY_TOKEN]; omega
  have hs : (LUKS2_get_token_jobj hdr t).isSome := by rw [hfind]; rfl
  have hrange : ¬ (k < 0 ∨ k ≥ Int.ofNat LUKS2_KEYSLOTS_MAX ∨
      t < 0 ∨ t ≥ Int.ofNat LUKS2_TOKENS_MAX) := by
    push_neg
    exact ⟨hk0, hk1, ht0, ht1⟩
  have e1 : LUKS2_token_assign hdr k t true false =
      (t, tokenModify hdr t (fun tok' =>
        if k ∈ tok'.keyslots then tok'
        else { tok' with keyslots := tok'.keyslots ++ [k] })) := by
    rw [token_assign_single hdr k t true false hkany htany hs,
        assign_one_keyslot_bind hdr t k tok hfind]
  have hfind1 : LUKS2_get_token_jobj
      (tokenModify hdr t (fun tok' =>
        if k ∈ tok'.keyslots then tok'
        else { tok' with keyslots := tok'.keyslots ++ [k] })) t =
      some (if k ∈ tok.keyslots then tok
            else { tok with keyslots := tok.keyslots ++ [k] }) :=
    get_token_jobj_tokenModify_self hdr t _ tok hfind
  have hmem1 : k ∈ (if k ∈ tok.keyslots then tok
      else { tok with keyslots := tok.keyslots ++ [k] }).keyslots := by
    by_cases hm : k ∈ tok.keyslots
    · rw [if_pos hm]; exact hm
    · rw [if_neg hm]; simp
  have hia1 : LUKS2_token_is_assigned
      (tokenModify hdr t (fun tok' =>
        if k ∈ tok'.keyslots then tok'
        else { tok' with keyslots := tok'.keyslots ++ [k] })) k t = 0 := by
    unfold LUKS2_token_is_assigned token_is_assigned
    rw [if_neg hrange, hfind1]
    dsimp only
    rw [if_pos hmem1]
  have hs1 : (LUKS2_get_token_jobj
      (tokenModify hdr t (fun tok' =>
        if k ∈ tok'.keyslots then tok'
        else { tok' with keyslots := tok'.keyslots ++ [k] })) t).isSome := by
    rw [hfind1]; rfl
  have e2 : LUKS2_token_assign
      (tokenModify hdr t (fun tok' =>
        if k ∈ tok'.keyslots then tok'
        else { tok' with keyslots := tok'.keyslots ++ [k] })) k t false false =
      (t, tokenModify
        (tokenModify hdr t (fun tok' =>
          if k ∈ tok'.keyslots then tok'
          else { tok' with keyslots := tok'.keyslots ++ [k] })) t
        (fun tok' =>
          if k ∈ tok'.keyslots then
            { tok' with keyslots := tok'.keyslots.erase k }
          else tok')) := by
    rw [token_assign_single _ k t false false hkany htany hs1,
        assign_one_keyslot_unbind _ t k _ hfind1]
  have hnd1 : (if k ∈ tok.keyslots then tok
      else { tok with keyslots := tok.keyslots ++ [k] }).keyslots.Nodup := by
    by_cases hm : k ∈ tok.keyslots
    · rw [if_pos hm]; exact hndks
    · rw [if_neg hm]
      simp [List.nodup_append, hndks, hm]
  have hfind2 : LUKS2_get_token_jobj
      (tokenModify
        (tokenModify hdr t (fun tok' =>
          if k ∈ tok'.keyslots then tok'
          else { tok' with keyslots := tok'.keyslots ++ [k] })) t
        (fun tok' =>
          if k ∈ tok'.keyslots then
            { tok' with keyslots := tok'.keyslots.erase k }
          else tok')) t =
      some (if k ∈ (if k ∈ tok.keyslots then tok
             else { tok with keyslots := tok.keyslots ++ [k] }).keyslots then
              { (if k ∈ tok.keyslots then tok
                 else { tok with keyslots := tok.keyslots ++ [k] }) with
                keyslots := (if k ∈ tok.keyslots then tok
                  else { tok with keyslots := tok.keyslots ++ [k] }).keyslots.erase k }
            else (if k ∈ tok.keyslots then tok
              else { tok with keyslots := tok.keyslots ++ [k] })) :=
    get_token_jobj_tokenModify_self _ t _ _ hfind1
  have hnotmem2 : k ∉ ((if k ∈ tok.keyslots then tok
      else { tok with keyslots := tok.keyslots ++ [k] }).keyslots).erase k :=
    fun hin => (hnd1.mem_erase_iff.mp hin).1 rfl
  refine ⟨⟨?_, ?_, ?_, ?_⟩, ?_⟩
  · rw [e1]
  · rw [e1]; exact hia1
  · rw [e1]; dsimp only; rw [e2]
  · rw [e1]; dsimp only; rw [e2]; dsimp only
    unfold LUKS2_token_is_assigned token_is_assigned
    rw [if_neg hrange, hfind2]
    dsimp only
    rw [if_pos hmem1]
    rw [if_neg hnotmem2]
  · intro hna
    have hknot : k ∉ tok.keyslots := by
      unfold LUKS2_token_is_assigned token_is_assigned at hna
      rw [if_neg hrange, hfind] at hna
      dsimp only at hna
      by_cases hm : k ∈ tok.keyslots
      · rw [if_pos hm] at hna
        exact absurd hna (by decide)
      · exact hm
    have hfid : (if k ∈ tok.keyslots then
        { tok with keyslots := tok.keyslots.erase k } else tok) = tok := by
      rw [if_neg hknot]
    rw [token_assign_single hdr k t false false hkany htany hs,
        assign_one_keyslot_unbind hdr t k tok hfind]
    dsimp only
    rw [tokenModify_eq_self hdr t (fun tok' =>
      if k ∈ tok'.keyslots then
        { tok' with keyslots := tok'.keyslots.erase k }
      else tok') tok hndkeys hfind hfid]

/-- Witness for C8: on a header with one token and no bindings, binding
keyslot 1 to token 0 makes `is_assigned` report 0, unbinding it again makes
it report `-ENOENT`, and unbinding the never-bound pair (2, 0) returns the
token id with the header unchanged. -/
theorem C8_bind_unbind_is_assigned_witness :
    LUKS2_token_is_assigned
        (LUKS2_token_assign
          { tokens := [(0, { ttype := "acme", keyslots := [] })],
            keyslotIds := [1, 2] } 1 0 true false).2 1 0 = 0 ∧
    LUKS2_token_assign
        { tokens := [(0, { ttype := "acme", keyslots := [] })],
          keyslotIds := [1, 2] } 2 0 false false =
      (0, { tokens := [(0, { ttype := "acme", keyslots := [] })],
            keyslotIds := [1, 2] }) := by
  constructor
  · exact (C8_bind_unbind_is_assigned
      { tokens := [(0, { ttype := "acme", keyslots := [] })],
        keyslotIds := [1, 2] } 0 1 { ttype := "acme", keyslots := [] }
      rfl (by decide) (by decide) (by decide) (by decide)
      (by decide) (by decide)).1.2.1
  · exact (C8_bind_unbind_is_assigned
      { tokens := [(0, { ttype := "acme", keyslots := [] })],
        keyslotIds := [1, 2] } 0 2 { ttype := "acme", keyslots := [] }
      rfl (by decide) (by decide) (by decide) (by decide)
      (by decide) (by decide)).2 (by decide)

/-- Deleting a freshly added entry under a previously free key restores the
token map exactly. -/
theorem tokensDel_tokensSet_of_free (l : List (Int × LUKS2Token)) (k : Int)
    (v : LUKS2Token) (h : assocFind l k = none) :
    tokensDel (tokensSet l k v) k = l := by
  have hnmem : k ∉ l.map Prod.fst := by
    rw [← assocFind_isSome_iff, h]
    simp
  have hns : ¬ ((assocFind l k).isSome = true) := by
    rw [h]; simp
  unfold tokensSet tokensDel
  rw [if_neg hns, List.filter_append]
  have h1 : l.filter (fun p => decide (p.1 ≠ k)) = l :=
    List.filter_eq_self.mpr (fun p hp => by
      simp only [decide_eq_true_eq]
      intro he
      exact hnmem (he ▸ List.mem_map_of_mem Prod.fst hp))
  rw [h1]
  simp

/-- A non-negative result of `LUKS2_token_find_free` names a free slot. -/
theorem token_find_free_spec (hdr : LUKS2Hdr)
    (h : 0 ≤ LUKS2_token_find_free hdr) :
    LUKS2_get_token_jobj hdr (LUKS2_token_find_free hdr) = none := by
  unfold LUKS2_token_find_free at h ⊢
  cases hf : (List.range LUKS2_TOKENS_MAX).find?
      (fun i => (LUKS2_get_token_jobj hdr (Int.ofNat i)).isNone) with
  | none =>
    rw [hf] at h
    dsimp only at h
    exact absurd h (by decide)
  | some i =>
    dsimp only
    have hp := List.find?_some hf
    exact Option.isNone_iff_eq_none.mp (by simpa using hp)

/-- Claim C4 counterexample: create over an occupied id.  The header holds
token 0 (type "a", serialized size 1) under a budget of 5; creating token 0
from a document of size 8 overflows the budget: the call returns `-ENOSPC`
but the token map is left empty — the prior record at id 0 was overwritten
and then deleted by the rollback, not restored. -/
theorem C4_counterexample_overwrite_lost :
    (LUKS2_token_create (fun _ => none)
        { tokens := [(0, { ttype := "a", keyslots := [] })], keyslotIds := [],
          defaultSegment := 0, jsonAreaSize := 5 }
        0 (some { ttype := "abcdefgh", keyslots := [] }) false).1 = -ENOSPC ∧
    (LUKS2_token_create (fun _ => none)
        { tokens := [(0, { ttype := "a", keyslots := [] })], keyslotIds := [],
          defaultSegment := 0, jsonAreaSize := 5 }
        0 (some { ttype := "abcdefgh", keyslots := [] }) false).2 ≠
      { tokens := [(0, { ttype := "a", keyslots := [] })], keyslotIds := [],
        defaultSegment := 0, jsonAreaSize := 5 } := by
  constructor
  · decide
  · decide

/-- Claim C4 (amended): when writing the parsed document would push the
metadata past the budget, create removes the just-written entry and returns
`-ENOSPC`; when the target id was previously unoccupied (always the case for
`CRYPT_ANY_TOKEN`, which picks a free slot) this leaves the token map
exactly as before the call.  A record previously stored under an explicitly
given id is deleted by the rollback, not restored. -/
theorem C4_create_nospace_rollback :
    ∀ (handlers : String → Option Handler) (hdr : LUKS2Hdr) (token : Int)
      (tok : LUKS2Token) (commit : Bool),
      (token = CRYPT_ANY_TOKEN ∨ LUKS2_get_token_jobj hdr token = none) →
      (LUKS2_token_create handlers hdr token (some tok) commit).1 = -ENOSPC →
      (LUKS2_token_create handlers hdr token (some tok) commit).2 = hdr := by
  intro handlers hdr token tok commit hfree h
  unfold LUKS2_token_create at h ⊢
  rw [if_neg (by simp : ¬ (token = CRYPT_ANY_TOKEN ∧
      (some tok).isNone = true))] at h ⊢
  by_cases hT : token = CRYPT_ANY_TOKEN
  · rw [if_pos hT] at h ⊢
    by_cases hg : LUKS2_token_find_free hdr < 0 ∨
        LUKS2_token_find_free hdr ≥ Int.ofNat LUKS2_TOKENS_MAX
    · rw [if_pos hg] at h
      dsimp only at h
      exact absurd h (by decide)
    rw [if_neg hg] at h ⊢
    push_neg at hg
    have hfree2 : LUKS2_get_token_jobj hdr (LUKS2_token_find_free hdr) =
        none := token_find_free_spec hdr hg.1
    dsimp only at h ⊢
    by_cases hv : LUKS2_token_validate hdr tok ≠ 0
    · rw [if_pos hv] at h
      dsimp only at h
      exact absurd h (by decide)
    rw [if_neg hv] at h ⊢
    by_cases hb : is_builtin_candidate tok.ttype = true ∧
        (handlers tok.ttype).isNone = true
    · rw [if_pos hb] at h
      dsimp only at h
      exact absurd h (by decide)
    rw [if_neg hb] at h ⊢
    by_cases hvd : (match handlers tok.ttype with
        | some hh => hh.hasValidate && !hh.validateOk tok
        | none => false) = true
    · rw [if_pos hvd] at h
      dsimp only at h
      exact absurd h (by decide)
    rw [if_neg hvd] at h ⊢
    by_cases hsz : LUKS2_check_json_size
        { hdr with tokens :=
            tokensSet hdr.tokens (LUKS2_token_find_free hdr) tok } = true
    · rw [if_pos hsz]
      dsimp only
      rw [tokensDel_tokensSet_of_free hdr.tokens (LUKS2_token_find_free hdr)
        tok hfree2]
    · rw [if_neg hsz] at h
      dsimp only at h
      simp only [ENOSPC] at h
      omega
  · rw [if_neg hT] at h ⊢
    by_cases hg : token < 0 ∨ token ≥ Int.ofNat LUKS2_TOKENS_MAX
    · rw [if_pos hg] at h
      dsimp only at h
      exact absurd h (by decide)
    rw [if_neg hg] at h ⊢
    push_neg at hg
    have hfree2 : LUKS2_get_token_jobj hdr token = none := by
      cases hfree with
      | inl he => exact absurd he hT
      | inr he => exact he
    dsimp only at h ⊢
    by_cases hv : LUKS2_token_validate hdr tok ≠ 0
    · rw [if_pos hv] at h
      dsimp only at h
      exact absurd h (by decide)
    rw [if_neg hv] at h ⊢
    by_cases hb : is_builtin_candidate tok.ttype = true ∧
        (handlers tok.ttype).isNone = true
    · rw [if_pos hb] at h
      dsimp only at h
      exact absurd h (by decide)
    rw [if_neg hb] at h ⊢
    by_cases hvd : (match handlers tok.ttype with
        | some hh => hh.hasValidate && !hh.validateOk tok
        | none => false) = true
    · rw [if_pos hvd] at h
      dsimp only at h
      exact absurd h (by decide)
    rw [if_neg hvd] at h ⊢
    by_cases hsz : LUKS2_check_json_size
        { hdr with tokens := tokensSet hdr.tokens token tok } = true
    · rw [if_pos hsz]
      dsimp only
      rw [tokensDel_tokensSet_of_free hdr.tokens token tok hfree2]
    · rw [if_neg hsz] at h
      dsimp only at h
      simp only [ENOSPC] at h
      omega

/-- Witness for C4 (amended): creating into a previously free id that
overflows the budget returns with the header exactly as before. -/
theorem C4_create_nospace_rollback_witness :
    (LUKS2_token_create (fun _ => none)
        { tokens := [], keyslotIds := [], defaultSegment := 0,
          jsonAreaSize := 5 }
        0 (some { ttype := "abcdefgh", keyslots := [] }) false).2 =
      { tokens := [], keyslotIds := [], defaultSegment := 0,
        jsonAreaSize := 5 } :=
  C4_create_nospace_rollback (fun _ => none)
    { tokens := [], keyslotIds := [], defaultSegment := 0, jsonAreaSize := 5 }
    0 { ttype := "abcdefgh", keyslots := [] } false (Or.inr (by decide))
    (by decide)

/-- The carried result is ignored as soon as another token entry remains. -/
theorem anyTokenLoop_carry_irrelevant (env : ActEnv) (hdr : LUKS2Hdr)
    (segment : Int) (type? pin? : Option String) (x : Int × LUKS2Token)
    (rest : List (Int × LUKS2Token)) (a b : Int) :
    anyTokenLoop env hdr segment type? pin? (x :: rest) a =
      anyTokenLoop env hdr segment type? pin? (x :: rest) b := by
  cases x
  rfl

/-- A block of attempts that all report `-ENOENT` or `-EPERM` is scanned past:
the loop continues with the remaining entries. -/
theorem anyTokenLoop_skip (env : ActEnv) (hdr : LUKS2Hdr) (segment : Int)
    (type? pin? : Option String) (pre : List (Int × LUKS2Token))
    (x : Int × LUKS2Token) (post : List (Int × LUKS2Token)) (r1 : Int) :
    ∀ r0 : Int,
      (∀ p ∈ pre,
        token_attempt env hdr segment type? pin? p.1 p.2 = -ENOENT ∨
        token_attempt env hdr segment type? pin? p.1 p.2 = -EPERM) →
      anyTokenLoop env hdr segment type? pin? (pre ++ x :: post) r0 =
        anyTokenLoop env hdr segment type? pin? (x :: post) r1 := by
  induction pre with
  | nil =>
    intro r0 _
    exact anyTokenLoop_carry_irrelevant env hdr segment type? pin? x post r0 r1
  | cons p pre ih =>
    intro r0 h
    cases p with
    | mk tid tok =>
      have hp := h (tid, tok) (by simp)
      have hcond : ¬ (token_attempt env hdr segment type? pin? tid tok ≠ -ENOENT ∧
          token_attempt env hdr segment type? pin? tid tok ≠ -EPERM) := by
        rcases hp with hp | hp
        · exact fun hc => hc.1 hp
        · exact fun hc => hc.2 hp
      simp only [List.cons_append, anyTokenLoop]
      rw [if_neg hcond]
      exact ih _ (fun q hq => h q (List.mem_cons_of_mem _ hq))

/-- Tail of `LUKS2_token_open_and_activate` on a hard error: returned as is. -/
theorem openActivateTail_neg (env : ActEnv) (s : Int) (name? : Option String)
    (kf : Bool) (hs : s < 0) : openActivateTail env s name? kf = s := by
  unfold openActivateTail
  rw [if_pos hs]

/-- Tail of `LUKS2_token_open_and_activate` without device name or keyring
flag: the unlocked keyslot is returned unchanged. -/
theorem openActivateTail_plain (env : ActEnv) (s : Int) (hs : 0 ≤ s) :
    openActivateTail env s none false = s := by
  unfold openActivateTail
  rw [if_neg (not_lt.mpr hs)]
  simp

/-- Claim C6 counterexample: a reachable header whose tokens object stores
id 2 before id 0 (tokens created in that order — `json_object_object_add`
appends new keys at the tail).  Both tokens are viable: the attempt for
token 0 unlocks keyslot 3 and the attempt for token 2 unlocks keyslot 7, so
a scan of the existing tokens in ascending id order stopping at the first
viable attempt would return 3; activation with `token = CRYPT_ANY_TOKEN`
follows the storage order and returns 7. -/
theorem C6_counterexample_storage_not_ascending :
    token_attempt
        { handlers := fun s => if s = "acme" then some { name := "acme" } else none }
        { tokens := [(2, { ttype := "acme", keyslots := [7] }),
                     (0, { ttype := "acme", keyslots := [3] })],
          keyslotIds := [3, 7] }
        CRYPT_ANY_SEGMENT none none 0 { ttype := "acme", keyslots := [3] } = 3 ∧
    token_attempt
        { handlers := fun s => if s = "acme" then some { name := "acme" } else none }
        { tokens := [(2, { ttype := "acme", keyslots := [7] }),
                     (0, { ttype := "acme", keyslots := [3] })],
          keyslotIds := [3, 7] }
        CRYPT_ANY_SEGMENT none none 2 { ttype := "acme", keyslots := [7] } = 7 ∧
    LUKS2_token_open_and_activate
        { handlers := fun s => if s = "acme" then some { name := "acme" } else none }
        { tokens := [(2, { ttype := "acme", keyslots := [7] }),
                     (0, { ttype := "acme", keyslots := [3] })],
          keyslotIds := [3, 7] }
        CRYPT_ANY_TOKEN none none none true false = 7 ∧
    LUKS2_token_open_and_activate
        { handlers := fun s => if s = "acme" then some { name := "acme" } else none }
        { tokens := [(2, { ttype := "acme", keyslots := [7] }),
                     (0, { ttype := "acme", keyslots := [3] })],
          keyslotIds := [3, 7] }
        CRYPT_ANY_TOKEN none none none true false ≠ 3 := by
  refine ⟨rfl, rfl, rfl, by decide⟩

/-- Claim C6 (amended): activation with `token = CRYPT_ANY_TOKEN`
(unbound-key mode) tries every existing token in the storage order of the
header's tokens object (json-c insertion order, which is ascending id order
exactly when the object is kept id-sorted) and stops at the first attempt
whose result is neither `-ENOENT` nor `-EPERM`: a different hard error is
returned as the overall result, and a successful attempt yields its unlocked
keyslot.  In particular, with three tokens whose first two attempts in
storage order report `-ENOENT` and whose third unlocks keyslot `k`, the
overall result is `k`; the skipped attempts mutate nothing (the embedding of
one attempt is a pure function of the header). -/
theorem C6_any_token_storage_order_scan :
    (∀ (env : ActEnv) (hdr : LUKS2Hdr) (type? pin? name? : Option String)
        (keyringFlag : Bool) (pre : List (Int × LUKS2Token))
        (tid : Int) (tok : LUKS2Token) (post : List (Int × LUKS2Token)),
        hdr.tokens = pre ++ (tid, tok) :: post →
        (∀ p ∈ pre,
          token_attempt env hdr CRYPT_ANY_SEGMENT type? pin? p.1 p.2 = -ENOENT ∨
          token_attempt env hdr CRYPT_ANY_SEGMENT type? pin? p.1 p.2 = -EPERM) →
        ((token_attempt env hdr CRYPT_ANY_SEGMENT type? pin? tid tok < 0 →
          token_attempt env hdr CRYPT_ANY_SEGMENT type? pin? tid tok ≠ -ENOENT →
          token_attempt env hdr CRYPT_ANY_SEGMENT type? pin? tid tok ≠ -EPERM →
          LUKS2_token_open_and_activate env hdr CRYPT_ANY_TOKEN name? type? pin?
              true keyringFlag =
            token_attempt env hdr CRYPT_ANY_SEGMENT type? pin? tid tok) ∧
         (0 ≤ token_attempt env hdr CRYPT_ANY_SEGMENT type? pin? tid tok →
          token_attempt env hdr CRYPT_ANY_SEGMENT type? pin? tid tok ≠ -ENOENT →
          token_attempt env hdr CRYPT_ANY_SEGMENT type? pin? tid tok ≠ -EPERM →
          LUKS2_token_open_and_activate env hdr CRYPT_ANY_TOKEN none type? pin?
              true false =
            token_attempt env hdr CRYPT_ANY_SEGMENT type? pin? tid tok))) ∧
    (∀ (env : ActEnv) (hdr : LUKS2Hdr) (type? pin? : Option String)
        (i1 i2 i3 k : Int) (t1 t2 t3 : LUKS2Token),
        hdr.tokens = [(i1, t1), (i2, t2), (i3, t3)] →
        token_attempt env hdr CRYPT_ANY_SEGMENT type? pin? i1 t1 = -ENOENT →
        token_attempt env hdr CRYPT_ANY_SEGMENT type? pin? i2 t2 = -ENOENT →
        token_attempt env hdr CRYPT_ANY_SEGMENT type? pin? i3 t3 = k →
        0 ≤ k →
        LUKS2_token_open_and_activate env hdr CRYPT_ANY_TOKEN none type? pin?
          true false = k) := by
  constructor
  · intro env hdr type? pin? name? keyringFlag pre tid tok post htok hpre
    constructor
    · intro hneg hne hnp
      unfold LUKS2_token_open_and_activate
      rw [if_neg (by simp : ¬ ((true : Bool) = false ∧ hdr.defaultSegment < 0))]
      rw [if_neg (by decide : ¬ (0 ≤ CRYPT_ANY_TOKEN ∧
          CRYPT_ANY_TOKEN < Int.ofNat LUKS2_TOKENS_MAX))]
      rw [if_pos rfl]
      rw [show (if (true : Bool) = true then CRYPT_ANY_SEGMENT
          else hdr.defaultSegment) = CRYPT_ANY_SEGMENT from if_pos rfl]
      rw [htok]
      rw [anyTokenLoop_skip env hdr CRYPT_ANY_SEGMENT type? pin? pre (tid, tok)
        post (-ENOENT) (-ENOENT) hpre]
      simp only [anyTokenLoop]
      rw [if_pos ⟨hne, hnp⟩]
      exact openActivateTail_neg env _ name? keyringFlag hneg
    · intro hpos hne hnp
      unfold LUKS2_token_open_and_activate
      rw [if_neg (by simp : ¬ ((true : Bool) = false ∧ hdr.defaultSegment < 0))]
      rw [if_neg (by decide : ¬ (0 ≤ CRYPT_ANY_TOKEN ∧
          CRYPT_ANY_TOKEN < Int.ofNat LUKS2_TOKENS_MAX))]
      rw [if_pos rfl]
      rw [show (if (true : Bool) = true then CRYPT_ANY_SEGMENT
          else hdr.defaultSegment) = CRYPT_ANY_SEGMENT from if_pos rfl]
      rw [htok]
      rw [anyTokenLoop_skip env hdr CRYPT_ANY_SEGMENT type? pin? pre (tid, tok)
        post (-ENOENT) (-ENOENT) hpre]
      simp only [anyTokenLoop]
      rw [if_pos ⟨hne, hnp⟩]
      exact openActivateTail_plain env _ hpos
  · intro env hdr type? pin? i1 i2 i3 k t1 t2 t3 htok ha1 ha2 ha3 hk
    have hne : token_attempt env hdr CRYPT_ANY_SEGMENT type? pin? i3 t3 ≠
        -ENOENT := by
      rw [ha3]
      intro he
      rw [he] at hk
      exact absurd hk (by decide)
    have hnp : token_attempt env hdr CRYPT_ANY_SEGMENT type? pin? i3 t3 ≠
        -EPERM := by
      rw [ha3]
      intro he
      rw [he] at hk
      exact absurd hk (by decide)
    have hpre : ∀ p ∈ [(i1, t1), (i2, t2)],
        token_attempt env hdr CRYPT_ANY_SEGMENT type? pin? p.1 p.2 = -ENOENT ∨
        token_attempt env hdr CRYPT_ANY_SEGMENT type? pin? p.1 p.2 = -EPERM := by
      intro p hp
      rcases List.mem_cons.mp hp with rfl | hp2
      · exact Or.inl ha1
      rcases List.mem_cons.mp hp2 with rfl | hp3
      · exact Or.inl ha2
      · simp at hp3
    unfold LUKS2_token_open_and_activate
    rw [if_neg (by simp : ¬ ((true : Bool) = false ∧ hdr.defaultSegment < 0))]
    rw [if_neg (by decide : ¬ (0 ≤ CRYPT_ANY_TOKEN ∧
        CRYPT_ANY_TOKEN < Int.ofNat LUKS2_TOKENS_MAX))]
    rw [if_pos rfl]
    rw [show (if (true : Bool) = true then CRYPT_ANY_SEGMENT
        else hdr.defaultSegment) = CRYPT_ANY_SEGMENT from if_pos rfl]
    rw [htok]
    rw [show ([(i1, t1), (i2, t2), (i3, t3)] : List (Int × LUKS2Token)) =
      [(i1, t1), (i2, t2)] ++ (i3, t3) :: [] from rfl]
    rw [anyTokenLoop_skip env hdr CRYPT_ANY_SEGMENT type? pin?
      [(i1, t1), (i2, t2)] (i3, t3) [] (-ENOENT) (-ENOENT) hpre]
    simp only [anyTokenLoop]
    rw [if_pos ⟨hne, hnp⟩]
    rw [ha3]
    exact openActivateTail_plain env k hk

/-- Witness for C6: a header with three tokens stored in the order 0, 1, 2.
The first two carry no keyslot references, so their attempts report
`-ENOENT`; the third references keyslot 3, which unlocks: the overall
result is 3. -/
theorem C6_any_token_storage_order_scan_witness :
    LUKS2_token_open_and_activate
      { handlers := fun s => if s = "acme" then some { name := "acme" } else none }
      { tokens := [(0, { ttype := "acme", keyslots := [] }),
                   (1, { ttype := "acme", keyslots := [] }),
                   (2, { ttype := "acme", keyslots := [3] })],
        keyslotIds := [3] }
      CRYPT_ANY_TOKEN none none none true false = 3 :=
  C6_any_token_storage_order_scan.2
    { handlers := fun s => if s = "acme" then some { name := "acme" } else none }
    { tokens := [(0, { ttype := "acme", keyslots := [] }),
                 (1, { ttype := "acme", keyslots := [] }),
                 (2, { ttype := "acme", keyslots := [3] })],
      keyslotIds := [3] }
    none none 0 1 2 3
    { ttype := "acme", keyslots := [] } { ttype := "acme", keyslots := [] }
    { ttype := "acme", keyslots := [3] }
    rfl rfl rfl rfl (by decide)

/-- An external load from a library whose mandatory `open` symbol is missing
fails with `-EINVAL` on every path. -/
theorem load_external_missing_open (dl : String → Option ExtLib)
    (name : String) (lib : ExtLib)
    (hdl : dl (tokenLibFileName name) = some lib)
    (hopen : lib.hasOpen = false) :
    crypt_token_load_external dl name = Except.error (-EINVAL) := by
  unfold crypt_token_load_external
  by_cases hval : external_token_name_valid name = false
  · rw [if_pos hval]
  rw [if_neg hval]
  by_cases hlen : ("libcryptsetup-token-".length + name.length +
      ".so".length ≥ 512 : Prop)
  · rw [if_pos hlen]
  rw [if_neg hlen]
  rw [hdl]
  dsimp only
  have hv2 : token_validate_v2
      { version := 2, name := name, hasOpen := lib.hasOpen,
        hasOpenPin := lib.hasOpenPin, hasValidate := lib.hasValidate,
        hasDump := lib.hasDump, hasBufferFree := lib.hasBufferFree,
        hasVersionSym := lib.hasVersionSym } = false := by
    unfold token_validate_v2 token_validate_v1
    dsimp only
    rw [hopen]
    rfl
  rw [if_pos hv2]

/-- Claim C7: resolving a type whose external library lacks the mandatory
`open` symbol fails with `-EINVAL` and never registers a handler — the
registry is returned unchanged — and the failure is not cached: a later
resolution of the same name against a linker environment that now provides a
complete library performs the full load and registers the handler. -/
theorem C7_external_load_no_negative_cache :
    (∀ (dl : String → Option ExtLib) (name : String) (lib : ExtLib),
        dl (tokenLibFileName name) = some lib → lib.hasOpen = false →
        crypt_token_load_external dl name = Except.error (-EINVAL)) ∧
    (∀ (dl : String → Option ExtLib) (reg : List RegHandler) (name : String)
        (lib : ExtLib),
        dl (tokenLibFileName name) = some lib → lib.hasOpen = false →
        regFind reg name = none →
        LUKS2_token_handler_type dl reg name = (reg, none)) ∧
    (∀ (dl2 : String → Option ExtLib) (reg : List RegHandler) (name : String)
        (lib2 : ExtLib),
        dl2 (tokenLibFileName name) = some lib2 →
        lib2.hasOpen = true → lib2.hasVersionSym = true →
        external_token_name_valid name = true →
        regFind reg name = none →
        reg.length < LUKS2_TOKENS_MAX →
        is_builtin_candidate name = false →
        LUKS2_token_handler_type dl2 reg name =
          (reg ++ [{ version := 2, name := name, hasOpen := lib2.hasOpen,
                     hasOpenPin := lib2.hasOpenPin,
                     hasValidate := lib2.hasValidate, hasDump := lib2.hasDump,
                     hasBufferFree := lib2.hasBufferFree,
                     hasVersionSym := lib2.hasVersionSym }],
           some { version := 2, name := name, hasOpen := lib2.hasOpen,
                  hasOpenPin := lib2.hasOpenPin,
                  hasValidate := lib2.hasValidate, hasDump := lib2.hasDump,
                  hasBufferFree := lib2.hasBufferFree,
                  hasVersionSym := lib2.hasVersionSym })) := by
  refine ⟨load_external_missing_open, ?_, ?_⟩
  · intro dl reg name lib hdl hopen hfind
    unfold LUKS2_token_handler_type
    rw [hfind]
    dsimp only
    by_cases hlen : reg.length ≥ LUKS2_TOKENS_MAX
    · rw [if_pos hlen]
    rw [if_neg hlen]
    by_cases hbc : is_builtin_candidate name = true
    · rw [if_pos hbc]
    rw [if_neg hbc]
    rw [load_external_missing_open dl name lib hdl hopen]
  · intro dl2 reg name lib2 hdl hopen hver hvalid hfind hlen hbc
    have hload : crypt_token_load_external dl2 name =
        Except.ok
          { version := 2, name := name, hasOpen := lib2.hasOpen,
            hasOpenPin := lib2.hasOpenPin, hasValidate := lib2.hasValidate,
            hasDump := lib2.hasDump, hasBufferFree := lib2.hasBufferFree,
            hasVersionSym := lib2.hasVersionSym } := by
      have hl64 : name.length ≤ LUKS2_TOKEN_NAME_MAX := by
        unfold external_token_name_valid at hvalid
        simp only [Bool.and_eq_true, decide_eq_true_eq] at hvalid
        exact hvalid.1.2
      unfold crypt_token_load_external
      rw [if_neg (by simp [hvalid] : ¬ (external_token_name_valid name = false))]
      rw [if_neg (by
        have h20 : ("libcryptsetup-token-".length : Nat) = 20 := rfl
        have h3 : (".so".length : Nat) = 3 := rfl
        simp only [LUKS2_TOKEN_NAME_MAX] at hl64
        omega)]
      rw [hdl]
      dsimp only
      rw [if_neg (by
        unfold token_validate_v2 token_validate_v1
        dsimp only
        rw [hopen, hver]
        simp)]
    unfold LUKS2_token_handler_type
    rw [hfind]
    dsimp only
    rw [if_neg (not_le.mpr hlen)]
    rw [if_neg (by simp [hbc] : ¬ (is_builtin_candidate name = true))]
    rw [hload]

/-- Witness for C7: against a linker with an open-less "acme" library the
registry (holding the builtin keyring handler) is unchanged and resolution
fails; against a linker with a complete library the same resolution then
succeeds. -/
theorem C7_external_load_no_negative_cache_witness :
    LUKS2_token_handler_type
        (fun s => if s = "libcryptsetup-token-acme.so" then
            some { hasOpen := false } else none)
        [{ version := 1, name := "luks2-keyring", hasOpen := true,
           hasValidate := true, hasDump := true }] "acme" =
      ([{ version := 1, name := "luks2-keyring", hasOpen := true,
          hasValidate := true, hasDump := true }], none) ∧
    (LUKS2_token_handler_type
        (fun s => if s = "libcryptsetup-token-acme.so" then
            some { hasOpen := true, hasVersionSym := true } else none)
        [{ version := 1, name := "luks2-keyring", hasOpen := true,
           hasValidate := true, hasDump := true }] "acme").2.isSome = true := by
  constructor
  · exact C7_external_load_no_negative_cache.2.1
      (fun s => if s = "libcryptsetup-token-acme.so" then
          some { hasOpen := false } else none)
      [{ version := 1, name := "luks2-keyring", hasOpen := true,
         hasValidate := true, hasDump := true }] "acme" { hasOpen := false }
      rfl rfl rfl
  · rw [C7_external_load_no_negative_cache.2.2
      (fun s => if s = "libcryptsetup-token-acme.so" then
          some { hasOpen := true, hasVersionSym := true } else none)
      [{ version := 1, name := "luks2-keyring", hasOpen := true,
         hasValidate := true, hasDump := true }] "acme"
      { hasOpen := true, hasVersionSym := true }
      rfl rfl rfl (by decide) rfl (by decide) (by decide)]
    rfl
